import Mathlib

/-!
Verification of the simulation engine of `script.js` (a Geometry-Dash-style
platformer): the quad-tree spatial index, the trigger system, the one-shot
interactive-object dispatch, the axis-separated collision passes, the particle
pool, the fixed-step accumulator and the input-replay mapping.

JavaScript numbers are modelled as rationals (`ℚ`).  Object references held by
the level (`level.objects`) are modelled as indices (`ℕ`) into a store
(`List Obj`): the quad tree stores indices, mirroring the fact that the JS
tree stores live references whose fields are read at query time.  The single
spot where an IEEE `NaN` can arise (an orb whose `effect` is missing from the
`jumps` table, line 645-646 of the source) is recorded by a boolean flag
`vyNaN` on the player, since `ℚ` has no `NaN` value.
-/

/-- `const TILE = 30` (script.js line 3). -/
def TILE : ℚ := 30

/-- `const HEIGHT = 14 * TILE` (script.js line 4). -/
def HEIGHT : ℚ := 14 * TILE

/-- Axis-aligned rectangle `{x, y, w, h}` used for all bounds and queries. -/
structure Rect where
  x : ℚ
  y : ℚ
  w : ℚ
  h : ℚ
deriving DecidableEq

/-- `QuadTree.intersects(a, b)` (script.js lines 37-39):
`a.x < b.x + b.w && a.x + a.w > b.x && a.y < b.y + b.h && a.y + a.h > b.y`. -/
def QuadTree.intersects (a b : Rect) : Bool :=
  (a.x < b.x + b.w) && (a.x + a.w > b.x) && (a.y < b.y + b.h) && (a.y + a.h > b.y)

/-- `Player.collide(a, b)` (script.js lines 666-668); textually the same
strict-inequality AABB test as `QuadTree.intersects`. -/
def Player.collide (a b : Rect) : Bool :=
  (a.x < b.x + b.w) && (a.x + a.w > b.x) && (a.y < b.y + b.h) && (a.y + a.h > b.y)

/-- A level object: the tagged variant produced by `generateLevel` and the
editor.  `type` is an open string tag (`block`, `spike`, `portal`, `orb`,
`pad`, `coin`, `tele`, `trigger`, `finish`, or anything else).  The JS `value`
payload of a portal holds either a number (speed portal) or a string (mode
portal); it is split into `valueNum`/`valueStr` here.  All fields carry the
defaults a missing JS property would effectively have in the claims below. -/
structure Obj where
  x : ℚ := 0
  y : ℚ := 0
  w : ℚ := 0
  h : ℚ := 0
  type : String := ""
  used : Bool := false
  group : Option ℤ := none
  effect : Option String := none
  valueNum : Option ℚ := none
  valueStr : Option String := none
  rot : ℚ := 0
  color : Option ℤ := none
  alpha : Option ℚ := none
  id : Option ℤ := none
  targetX : ℚ := 0
  targetY : ℚ := 0
  targetGroup : Option ℤ := none
  dx : ℚ := 0
  dy : ℚ := 0
  duration : ℚ := 0
deriving DecidableEq

/-- The object with every field at its default; stands in for an
out-of-range access, which cannot happen on the paths modelled here. -/
def defaultObj : Obj := {}

/-- The heap of level objects; a JS object reference is an index into it. -/
abbrev Store := List Obj

/-- The rectangle `{x, y, w, h}` carried by an object. -/
def rectOf (o : Obj) : Rect := ⟨o.x, o.y, o.w, o.h⟩

/-- The rectangle of the object behind reference `i`, read live from the
store (the JS tree stores references, not copies). -/
def rectAt (store : Store) (i : ℕ) : Rect := rectOf (store.getD i defaultObj)

/-- A quad-tree node (script.js lines 7-13): bounds, capacity, the objects
held at this node, and — once `subdivide` has run — four children.
`leaf` is a node with `divided = false`, `node` one with `divided = true`. -/
inductive QT where
  | leaf (bounds : Rect) (cap : ℕ) (objs : List ℕ)
  | node (bounds : Rect) (cap : ℕ) (objs : List ℕ) (nw ne sw se : QT)
deriving DecidableEq

/-- The `bounds` field of a node. -/
def QT.boundsOf : QT → Rect
  | .leaf b _ _ => b
  | .node b _ _ _ _ _ _ => b

/-- North-west quadrant produced by `subdivide` (script.js line 16). -/
def quadNW (b : Rect) : Rect := ⟨b.x, b.y, b.w / 2, b.h / 2⟩

/-- North-east quadrant produced by `subdivide` (script.js line 17). -/
def quadNE (b : Rect) : Rect := ⟨b.x + b.w / 2, b.y, b.w / 2, b.h / 2⟩

/-- South-west quadrant produced by `subdivide` (script.js line 18). -/
def quadSW (b : Rect) : Rect := ⟨b.x, b.y + b.h / 2, b.w / 2, b.h / 2⟩

/-- South-east quadrant produced by `subdivide` (script.js line 19). -/
def quadSE (b : Rect) : Rect := ⟨b.x + b.w / 2, b.y + b.h / 2, b.w / 2, b.h / 2⟩

/-- One `q.insert(obj)` call on a freshly subdivided child: the child is a
brand-new `QuadTree` (capacity 4, no objects, not divided), so the call
either fails the bounds test or stores the object; this is the single
unfolding of `QuadTree.insert` that applies there (see `insertFresh_eq`). -/
def insertFresh (b : Rect) (store : Store) (i : ℕ) : QT × Bool :=
  if QuadTree.intersects b (rectAt store i) then (.leaf b 4 [i], true)
  else (.leaf b 4 [], false)

/-- `QuadTree.insert(obj)` (script.js lines 22-30).  Returns the updated tree
and the boolean result.  `[this.nw, this.ne, this.sw, this.se].some(q =>
q.insert(obj))` short-circuits: children are tried in NW, NE, SW, SE order
and the first success stops the scan, leaving later children untouched. -/
def QuadTree.insert (store : Store) : QT → ℕ → QT × Bool
  | .leaf b cap objs, i =>
    if QuadTree.intersects b (rectAt store i) then
      if objs.length < cap then (.leaf b cap (objs ++ [i]), true)
      else
        -- `subdivide()` then `.some` over the four fresh children
        match insertFresh (quadNW b) store i with
        | (nw1, true) =>
          (.node b cap objs nw1 (.leaf (quadNE b) 4 []) (.leaf (quadSW b) 4 []) (.leaf (quadSE b) 4 []), true)
        | (nw1, false) =>
          match insertFresh (quadNE b) store i with
          | (ne1, true) => (.node b cap objs nw1 ne1 (.leaf (quadSW b) 4 []) (.leaf (quadSE b) 4 []), true)
          | (ne1, false) =>
            match insertFresh (quadSW b) store i with
            | (sw1, true) => (.node b cap objs nw1 ne1 sw1 (.leaf (quadSE b) 4 []), true)
            | (sw1, false) =>
              match insertFresh (quadSE b) store i with
              | (se1, r4) => (.node b cap objs nw1 ne1 sw1 se1, r4)
    else (.leaf b cap objs, false)
  | .node b cap objs nw ne sw se, i =>
    if QuadTree.intersects b (rectAt store i) then
      match QuadTree.insert store nw i with
      | (nw1, true) => (.node b cap objs nw1 ne sw se, true)
      | (nw1, false) =>
        match QuadTree.insert store ne i with
        | (ne1, true) => (.node b cap objs nw1 ne1 sw se, true)
        | (ne1, false) =>
          match QuadTree.insert store sw i with
          | (sw1, true) => (.node b cap objs nw1 ne1 sw1 se, true)
          | (sw1, false) =>
            match QuadTree.insert store se i with
            | (se1, r4) => (.node b cap objs nw1 ne1 sw1 se1, r4)
    else (.node b cap objs nw ne sw se, false)

/-- `QuadTree.query(range, found)` (script.js lines 31-36): prune on the node
bounds, push every held object overlapping the range, then recurse into all
four children in NW, NE, SW, SE order, threading the accumulator. -/
def QuadTree.query (store : Store) : QT → Rect → List ℕ → List ℕ
  | .leaf b _ objs, range, found =>
    if QuadTree.intersects b range then
      found ++ objs.filter (fun i => QuadTree.intersects range (rectAt store i))
    else found
  | .node b _ objs nw ne sw se, range, found =>
    if QuadTree.intersects b range then
      QuadTree.query store se range (QuadTree.query store sw range (QuadTree.query store ne range (QuadTree.query store nw range
        (found ++ objs.filter (fun i => QuadTree.intersects range (rectAt store i))))))
    else found

/-- Insert the references in `l` one after the other, keeping the tree
(`forEach(o => quadTree.insert(o))`, script.js line 127 / 366). -/
def foldInsert (store : Store) (l : List ℕ) (t : QT) : QT :=
  l.foldl (fun t i => (QuadTree.insert store t i).1) t

/-- `new QuadTree({x: 0, y: 0, w, h})` followed by inserting every level
object (script.js lines 126-127, 365-366): root capacity is the default 4. -/
def buildTree (store : Store) (bounds : Rect) : QT :=
  foldInsert store (List.range store.length) (.leaf bounds 4 [])

/-- One row of the `MODES` table (script.js lines 704-713). -/
structure ModeData where
  baseSpeed : ℚ
  gravity : ℚ
  jump : ℚ
  thrust : ℚ
  speed : ℚ
deriving DecidableEq

/-- The `MODES` constant table (script.js lines 704-713).  Looking up a key
that is absent yields `none` (JS: `undefined`; dereferencing it would throw,
a path none of the claims exercises). -/
def MODES (m : String) : Option ModeData :=
  if m = "cube" then some ⟨10309/1000, 89/100, -112/10, 0, 0⟩
  else if m = "ship" then some ⟨125/10, 1/2, 0, 7/10, 0⟩
  else if m = "ball" then some ⟨10309/1000, 0, 0, 0, 0⟩
  else if m = "ufo" then some ⟨10309/1000, 89/200, -85/10, 0, 0⟩
  else if m = "wave" then some ⟨13, 0, 0, 0, 15⟩
  else if m = "robot" then some ⟨10309/1000, 11/10, -15, 0, 0⟩
  else if m = "spider" then some ⟨10309/1000, 0, -112/10, 0, 0⟩
  else if m = "swing" then some ⟨12, 6/10, 0, 8/10, 0⟩
  else none

/-- `MODES[m]` where the caller immediately reads a field.  For an unknown
mode the JS code would throw on the field access; the zero row returned here
is unreachable in every claim (all claims use valid modes). -/
def MODESget (m : String) : ModeData := (MODES m).getD ⟨0, 0, 0, 0, 0⟩

/-- The actor state (`Player`, script.js lines 520-541), with the defaults
set by `reset()`.  `flip` is the numeric gravity sign (`1` or `-1`),
`vyNaN` records that `vy` was assigned `NaN` (see module comment). -/
structure Player where
  x : ℚ := TILE * 3
  y : ℚ := HEIGHT - TILE * 3/2
  vx : ℚ := 10309/1000
  vy : ℚ := 0
  mode : String := "cube"
  flip : ℚ := 1
  mini : Bool := false
  size : ℚ := 1
  active : Bool := true
  onGround : Bool := true
  jumpHold : ℚ := 0
  dashHold : Bool := false
  rot : ℚ := 0
  trail : List (ℚ × ℚ × ℚ) := []
  mirror : Bool := false
  color : ℤ := 4
  vyNaN : Bool := false
deriving DecidableEq

/-- `Player.getBBox()` (script.js lines 662-665):
`s = TILE * size * (mini ? 0.5 : 1) * 0.9`, box centred on `(x, y)`. -/
def getBBox (p : Player) : Rect :=
  let s := TILE * p.size * (if p.mini then 1/2 else 1) * (9/10)
  ⟨p.x - s / 2, p.y - s / 2, s, s⟩

/-- `Player.jump(hold = false)` (script.js lines 627-630):
`if (this.onGround || hold) this.vy = modeData.jump * this.flip`. -/
def Player.jump (p : Player) (hold : Bool) : Player :=
  if p.onGround || hold then {p with vy := (MODESget p.mode).jump * p.flip} else p

/-- The player-visible effect of `Game.handleInput(down)` during play
(script.js lines 298-304): a down edge calls `this.player.jump()` (so
`hold` takes its default `false`); a release calls nothing. -/
def handleInputPlayer (down : Bool) (p : Player) : Player :=
  if down then p.jump false else p

/-- The player-visible effect of one replayed event inside `Game.playReplay`
(script.js lines 496-502): a recorded `jump` is reissued as
`this.player.jump(true)` and a recorded `release` as `this.player.jump(false)`. -/
def replayAction (a : String) (p : Player) : Player :=
  if a = "jump" then p.jump true
  else if a = "release" then p.jump false
  else p

/-- `{objects, width, height}` (script.js line 279). -/
structure Level where
  objects : Store := []
  width : ℚ := 0
  height : ℚ := 0
deriving DecidableEq

/-- The game state touched by the object/trigger systems (a slice of the
`Game` instance, script.js lines 42-100): the level, the spatial index, the
speed multiplier, dual-mode flag, counters and the particle pool occupancy
(`poolLen` is `particlesPool.length`, fixed at 1000 at construction).
`deaths`/`wins` count the `die()` / `win()` signals emitted (spec section 6
events); `die`'s practice-checkpoint / restart handling and `win`'s UI are
host-level collaborators outside this slice. -/
structure Game where
  level : Level := {}
  tree : QT := .leaf ⟨0, 0, 0, 0⟩ 4 []
  speedMult : ℚ := 1
  player2active : Bool := false
  coins : ℕ := 0
  orbs : ℕ := 0
  activeParticles : ℕ := 0
  poolLen : ℕ := 1000
  deaths : ℕ := 0
  wins : ℕ := 0
deriving DecidableEq

/-- The loop body of `Game.addParticle` (script.js lines 400-405), tracking
the active count: `for (i < count) { if (activeParticles >=
particlesPool.length) break; particlesPool[activeParticles++].init(...) }`.
Slot initialisation is cosmetic and not tracked. -/
def addParticleCount (poolLen active count : ℕ) : ℕ :=
  match count with
  | 0 => active
  | c + 1 => if poolLen ≤ active then active else addParticleCount poolLen (active + 1) c

/-- `Game.addParticle(x, y, type, count)` on the modelled game slice; the
position and kind only initialise pooled slots. -/
def addParticle (g : Game) (_x _y : ℚ) (_ptype : String) (count : ℕ) : Game :=
  {g with activeParticles := addParticleCount g.poolLen g.activeParticles count}

/-- `Game.die(player)` (script.js lines 390-399): spawn 50 death particles,
then signal death (the checkpoint restore / `restart()` that follows is the
level reset that clears `used` flags — host side of the modelled slice). -/
def dieG (g : Game) (px py : ℚ) : Game :=
  let g1 := addParticle g px py "death" 50
  {g1 with deaths := g1.deaths + 1}

/-- `Game.win()` (script.js lines 386-389): signal level completion. -/
def winG (g : Game) : Game := {g with wins := g.wins + 1}

/-- The `jumps` table of the orb branch (script.js line 645):
`{yellow: 1.0, green: 1.2, red: 0.8, dash: 0}`; unknown keys are absent
(JS: `undefined`). -/
def orbJumps (e : String) : Option ℚ :=
  if e = "yellow" then some 1
  else if e = "green" then some (12/10)
  else if e = "red" then some (8/10)
  else if e = "dash" then some 0
  else none

/-- JS truthiness of the numeric `id` payload (`if (o.id)`): absent or `0`
is falsy. -/
def truthy (v : Option ℤ) : Bool :=
  match v with
  | none => false
  | some n => n != 0

/-- `Player.handleObject(o)` (script.js lines 631-661).  Marks `used` first,
then dispatches on `o.type`; returns the updated player, game slice and
object.  In the orb branch, `jumps[o.effect]` for an unrecognised effect is
`undefined` and `MODES[mode].jump * flip * undefined` is `NaN`: that
assignment is modelled by `vy := 0, vyNaN := true`. -/
def handleObject (p : Player) (g : Game) (o : Obj) : Player × Game × Obj :=
  if o.used then (p, g, o)
  else
    let o2 := {o with used := true}
    if o2.type = "portal" then
      let p1 := if o2.effect = some "gravity" then {p with flip := -p.flip} else p
      let p2 := if o2.effect = some "mini" then {p1 with mini := !p1.mini} else p1
      let p3 := if o2.effect = some "mirror" then {p2 with mirror := !p2.mirror} else p2
      let g1 := if o2.effect = some "dual" then {g with player2active := !g.player2active} else g
      let g2 := if o2.effect = some "speed" then {g1 with speedMult := o2.valueNum.getD 0} else g1
      let p4 := if o2.effect = some "mode" then {p3 with mode := o2.valueStr.getD ""} else p3
      (p4, g2, o2)
    else if o2.type = "tele" then
      ({p with x := o2.targetX, y := o2.targetY}, g, o2)
    else if o2.type = "orb" then
      let p1 :=
        match o2.effect.bind orbJumps with
        | some f => {p with vy := (MODESget p.mode).jump * p.flip * f, vyNaN := false}
        | none => {p with vy := 0, vyNaN := true}
      let p2 := if o2.effect = some "dash" then {p1 with dashHold := true} else p1
      let g1 := addParticle g o2.x o2.y "orb" 30
      let g2 := if truthy o2.id then {g1 with orbs := g1.orbs + 1} else g1
      (p2, g2, o2)
    else if o2.type = "pad" then
      ({p with vy := (MODESget p.mode).jump * p.flip * (15/10)},
       addParticle g o2.x o2.y "pad" 20, o2)
    else if o2.type = "coin" then
      (p, addParticle {g with coins := g.coins + 1} o2.x o2.y "coin" 40, o2)
    else if o2.type = "finish" then (p, winG g, o2)
    else if o2.type = "spike" then (p, dieG g p.x p.y, o2)
    else (p, g, o2)

/-- Repeated contact dispatch on the same (live) object: one
`handleObject` call per frame while the bounding boxes keep overlapping. -/
def contactIter : ℕ → Player × Game × Obj → Player × Game × Obj
  | 0, s => s
  | n + 1, (p, g, o) =>
    let r := handleObject p g o
    contactIter n (r.1, r.2.1, r.2.2)

/-- The `move` branch of `Game.handleTrigger` (script.js lines 360-364):
`objects.filter(obj => obj.group === o.targetGroup).forEach(obj => { obj.x +=
o.dx; obj.y += o.dy })`, i.e. shift every object whose `group` strictly
equals the trigger's `targetGroup`. -/
def applyToGroupMove (objs : Store) (tg : Option ℤ) (dx dy : ℚ) : Store :=
  objs.map (fun obj => if obj.group == tg then {obj with x := obj.x + dx, y := obj.y + dy} else obj)

/-- The `color` branch of `Game.handleTrigger` (script.js lines 368-370). -/
def applyToGroupColor (objs : Store) (tg : Option ℤ) (c : Option ℤ) : Store :=
  objs.map (fun obj => if obj.group == tg then {obj with color := c} else obj)

/-- The `alpha` branch of `Game.handleTrigger` (script.js lines 371-373). -/
def applyToGroupAlpha (objs : Store) (tg : Option ℤ) (a : Option ℚ) : Store :=
  objs.map (fun obj => if obj.group == tg then {obj with alpha := a} else obj)

/-- `Game.handleTrigger(o)` (script.js lines 357-374) on the object behind
reference `i`: bail out if `used`, otherwise set `used` and dispatch on the
trigger's `effect` (the three `if`s in the source test mutually exclusive
string values, so an `else if` chain is equivalent).  The `move` branch
rebuilds the quad tree over `{x: 0, y: 0, w: level.width, h: level.height}`
(script.js lines 365-366). -/
def handleTrigger (g : Game) (i : ℕ) : Game :=
  match g.level.objects[i]? with
  | none => g
  | some o =>
    if o.used then g
    else
      let objs0 := g.level.objects.set i {o with used := true}
      if o.effect = some "move" then
        let objs1 := applyToGroupMove objs0 o.targetGroup o.dx o.dy
        {g with level := {g.level with objects := objs1},
                tree := buildTree objs1 ⟨0, 0, g.level.width, g.level.height⟩}
      else if o.effect = some "color" then
        {g with level := {g.level with objects := applyToGroupColor objs0 o.targetGroup o.color}}
      else if o.effect = some "alpha" then
        {g with level := {g.level with objects := applyToGroupAlpha objs0 o.targetGroup o.alpha}}
      else
        {g with level := {g.level with objects := objs0}}

/-- `Game.updateTriggers(dt)` (script.js lines 351-356): query the index with
the player's bounding box and run `handleTrigger` on every queried object
whose `type` is `trigger` and which collides with that box.  The query
snapshot is taken once; fields are re-read live at each step. -/
def updateTriggersStep (bbox : Rect) (gAcc : Game) (i : ℕ) : Game :=
  let o := gAcc.level.objects.getD i defaultObj
  if o.type = "trigger" && Player.collide bbox (rectOf o) then handleTrigger gAcc i
  else gAcc

/-- The fold of `updateTriggersStep` over the query snapshot. -/
def updateTriggers (p : Player) (g : Game) : Game :=
  let bbox := getBBox p
  let vis := QuadTree.query g.level.objects g.tree bbox []
  vis.foldl (updateTriggersStep bbox) g

/-- One step of the "Objects handle" loop: `handleObject` applied through
reference `i`, writing the mutated object back into the store. -/
def handleObjectAt (p : Player) (g : Game) (objs : Store) (i : ℕ) : Player × Game × Store :=
  match objs[i]? with
  | none => (p, g, objs)
  | some o =>
    let r := handleObject p g o
    (r.1, r.2.1, objs.set i r.2.2)

/-- The "Objects handle" pass of `Player.update` (script.js lines 620-623):
`vis.forEach(o => { if (collide(bbox, o)) this.handleObject(o) })`, with
`bbox` fixed and object fields read live. -/
def objectsHandleStep (bbox : Rect) (s : Player × Game × Store) (i : ℕ) :
    Player × Game × Store :=
  if Player.collide bbox (rectAt s.2.2 i) then handleObjectAt s.1 s.2.1 s.2.2 i
  else s

/-- The fold of `objectsHandleStep` over the visibility snapshot. -/
def objectsHandlePass (bbox : Rect) (vis : List ℕ) (p : Player) (g : Game) (objs : Store) :
    Player × Game × Store :=
  vis.foldl (objectsHandleStep bbox) (p, g, objs)

/-- The frame fragment relevant to claim C10, in source order (`Game.update`,
script.js lines 321-324): first the object dispatch at the end of
`Player.update` (lines 599-600 compute `bbox` and `vis`, lines 620-623
dispatch), then `Game.updateTriggers`. -/
def dispatchThenTriggers (p : Player) (g : Game) : Player × Game :=
  let bbox := getBBox p
  let vis := QuadTree.query g.level.objects g.tree bbox []
  let r := objectsHandlePass bbox vis p g g.level.objects
  let g1 := {r.2.1 with level := {r.2.1.level with objects := r.2.2}}
  (r.1, updateTriggers r.1 g1)

/-- The X collision pass of `Player.update` (script.js lines 602-606).  Note
the box it tests is `{...bbox, x: this.x}` — the stale bounding box with its
`x` corner replaced by the live player *centre* `this.x`. -/
def xPass (store : Store) (bbox : Rect) (vis : List ℕ) (p : Player) : Player :=
  vis.foldl
    (fun p i =>
      let o := store.getD i defaultObj
      if o.type = "block" && Player.collide {bbox with x := p.x} (rectOf o) then
        {p with x := if p.vx > 0 then o.x - bbox.w else o.x + o.w}
      else p)
    p

/-- The Y collision pass of `Player.update` (script.js lines 607-619); the
tested box is `{...bbox, y: this.y}` (stale box, live centre `this.y`). -/
def yPass (store : Store) (bbox : Rect) (vis : List ℕ) (p : Player) : Player :=
  vis.foldl
    (fun p i =>
      let o := store.getD i defaultObj
      if o.type = "block" && Player.collide {bbox with y := p.y} (rectOf o) then
        if p.vy * p.flip > 0 then
          {p with y := if p.flip > 0 then o.y - bbox.h else o.y + o.h, vy := 0, onGround := true}
        else
          {p with y := if p.flip > 0 then o.y + o.h else o.y - bbox.h, vy := 0}
      else p)
    p

/-- The collision-resolution fragment of `Player.update` (script.js lines
598-619), starting from the already-advanced position: clear `onGround`,
take the bounding box, query the index once, then run the X pass and the Y
pass over the same visibility list. -/
def collisionResolve (store : Store) (t : QT) (p : Player) : Player :=
  let p0 : Player := {p with onGround := false}
  let bbox := getBBox p0
  let vis := QuadTree.query store t bbox []
  yPass store bbox vis (xPass store bbox vis p0)

/-- `step = 1 / 240` (script.js line 316). -/
def stepQ : ℚ := 1 / 240

/-- `Math.min((now - lastTime) / 1000, 1 / 30)` (script.js line 512): the
raw frame time is clamped before being fed to `update`. -/
def clampDt (raw : ℚ) : ℚ := min raw (1 / 30)

/-- The `while (accumulator >= step)` drain (script.js lines 317-320),
written with explicit fuel: each iteration runs one `fixedUpdate(step)` and
subtracts `step`, so the loop runs exactly `⌊acc·240⌋` times; `drainAcc`
supplies that fuel and `drainAcc_unfold` recovers the literal loop
unfolding. Returns the final accumulator and the sub-step count. -/
def drainGo : ℕ → ℚ → ℚ × ℕ
  | 0, acc => (acc, 0)
  | fuel + 1, acc =>
    if stepQ ≤ acc then
      let r := drainGo fuel (acc - stepQ)
      (r.1, r.2 + 1)
    else (acc, 0)

/-- The accumulator drain of `Game.update` (script.js lines 315-320). -/
def drainAcc (acc : ℚ) : ℚ × ℕ := drainGo (Int.toNat ⌊acc * 240⌋) acc

/-- One frame of the fixed-step scheduler as seen by the accumulator
(`Game.loop` line 512 feeding `Game.update` lines 315-320): clamp the raw
elapsed time, add it to the accumulator, drain in steps of `1/240`. -/
def gameFrame (acc raw : ℚ) : ℚ × ℕ := drainAcc (acc + clampDt raw)

/-- C1 failing input: a 100×100 root, four objects filling the root's
capacity, then `R` (index 4) straddling the `x = 50` subdivision boundary. -/
def storeC1 : Store :=
  [{x := 61, y := 61, w := 2, h := 2, type := "block"},
   {x := 65, y := 65, w := 2, h := 2, type := "block"},
   {x := 69, y := 69, w := 2, h := 2, type := "block"},
   {x := 73, y := 73, w := 2, h := 2, type := "block"},
   {x := 40, y := 10, w := 20, h := 20, type := "block"}]

/-- C1: the index bounds. -/
def boundsC1 : Rect := ⟨0, 0, 100, 100⟩

/-- C1: a query range overlapping `R` only to the right of `x = 50`. -/
def rangeC1 : Rect := ⟨55, 12, 4, 4⟩

/-- C9 counterexample store: one 10×10 block at the origin. -/
def storeC9 : Store := [{x := 0, y := 0, w := 10, h := 10, type := "block"}]

/-- C9: a zero-width, zero-height (hence zero-area) query range strictly
inside the stored block. -/
def rangeC9 : Rect := ⟨5, 5, 0, 0⟩

/-- C4 failing input: one standard block. -/
def blockC4 : Obj := {x := 0, y := 0, w := 30, h := 30, type := "block"}

/-- C4: the store holding just that block. -/
def storeC4 : Store := [blockC4]

/-- C4: actor centred at (31, 31) moving right and down; its 27×27 hitbox
spans [17.5, 44.5]² and overlaps the block. -/
def pC4 : Player := {x := 31, y := 31, vy := 1}

/-- C6 failing input: the freshly reset player (grounded cube, `vy = 0`). -/
def pC6 : Player := {}

/-- C2 witness trigger: the demo-level move trigger
`{effect: move, targetGroup: 1, dx: 50, dy: 0}` (script.js line 268). -/
def trigC2 : Obj :=
  {x := 300, y := 0, w := 30, h := 30, type := "trigger",
   effect := some "move", targetGroup := some 1, dx := 50, dy := 0, duration := 2}

/-- C2 witness store: the trigger, one group-1 ground block, one group-2 block. -/
def storeC2 : Store :=
  [trigC2,
   {x := 0, y := 405, w := 30, h := 15, type := "block", group := some 1},
   {x := 100, y := 100, w := 30, h := 30, type := "block", group := some 2}]

/-- C2 witness game: a 600×420 level over `storeC2` with its index built. -/
def gC2 : Game :=
  {level := {objects := storeC2, width := 600, height := 420},
   tree := buildTree storeC2 ⟨0, 0, 600, 420⟩}

/-- C3 witness: a fresh spike. -/
def spikeC3 : Obj := {x := 90, y := 390, w := 30, h := 30, type := "spike"}

/-- C5 counterexample: an orb whose `effect` is not in the `jumps` table. -/
def orbC5 : Obj := {x := 0, y := 0, w := 30, h := 30, type := "orb", effect := some "purple"}

/-- C5 witness: an object of a kind the dispatch has no branch for. -/
def mysteryC5 : Obj := {x := 1, y := 2, w := 3, h := 4, type := "mystery"}

/-- C10 witness: an alpha trigger sitting at the origin. -/
def trigC10 : Obj :=
  {x := 0, y := 0, w := 30, h := 30, type := "trigger",
   effect := some "alpha", targetGroup := some 1, alpha := some (1/2)}

/-- C10 witness store. -/
def storeC10 : Store := [trigC10]

/-- C10 witness game. -/
def gC10 : Game :=
  {level := {objects := storeC10, width := 600, height := 420},
   tree := buildTree storeC10 ⟨0, 0, 600, 420⟩}

/-- C10 witness player, overlapping the trigger. -/
def pC10 : Player := {x := 10, y := 10}

/-- Well-formed trees: every divided node's children carry exactly the four
`subdivide` quadrants of its bounds.  Holds for every tree grown by `insert`
from a fresh root (`subdivide` is the only way children appear). -/
inductive WF : QT → Prop
  | leaf {b : Rect} {cap : ℕ} {objs : List ℕ} : WF (.leaf b cap objs)
  | node {b : Rect} {cap : ℕ} {objs : List ℕ} {nw ne sw se : QT} :
      nw.boundsOf = quadNW b → ne.boundsOf = quadNE b →
      sw.boundsOf = quadSW b → se.boundsOf = quadSE b →
      WF nw → WF ne → WF sw → WF se → WF (.node b cap objs nw ne sw se)

theorem intersects_iff (a b : Rect) :
    QuadTree.intersects a b = true ↔
      a.x < b.x + b.w ∧ a.x + a.w > b.x ∧ a.y < b.y + b.h ∧ a.y + a.h > b.y := by
  simp [QuadTree.intersects, and_assoc]

theorem collide_eq_intersects (a b : Rect) : Player.collide a b = QuadTree.intersects a b := rfl

/-- A freshly subdivided child is an empty capacity-4 leaf, for which
`insertFresh` is the one-step unfolding of `insert`. -/
theorem insertFresh_eq (b : Rect) (store : Store) (i : ℕ) :
    insertFresh b store i = QuadTree.insert store (.leaf b 4 []) i := by
  by_cases h : QuadTree.intersects b (rectAt store i) <;> simp [QuadTree.insert, insertFresh, h]

theorem query_exists (store : Store) (range : Rect) :
    ∀ t : QT, ∃ l, ∀ found, QuadTree.query store t range found = found ++ l := by
  intro t
  induction t with
  | leaf b cap objs =>
    by_cases h : QuadTree.intersects b range
    · exact ⟨objs.filter (fun i => QuadTree.intersects range (rectAt store i)),
        fun found => by simp [QuadTree.query, h]⟩
    · exact ⟨[], fun found => by simp [QuadTree.query, h]⟩
  | node b cap objs nw ne sw se ihnw ihne ihsw ihse =>
    obtain ⟨lnw, hnw⟩ := ihnw
    obtain ⟨lne, hne⟩ := ihne
    obtain ⟨lsw, hsw⟩ := ihsw
    obtain ⟨lse, hse⟩ := ihse
    by_cases h : QuadTree.intersects b range
    · refine ⟨objs.filter (fun i => QuadTree.intersects range (rectAt store i)) ++ lnw ++ lne ++ lsw ++ lse,
        fun found => ?_⟩
      simp [QuadTree.query, h, hnw, hne, hsw, hse, List.append_assoc]
    · exact ⟨[], fun found => by simp [QuadTree.query, h]⟩

theorem query_append (store : Store) (t : QT) (range : Rect) (found : List ℕ) :
    QuadTree.query store t range found = found ++ QuadTree.query store t range [] := by
  obtain ⟨l, hl⟩ := query_exists store range t
  rw [hl, hl]
  simp

theorem mem_query_leaf (store : Store) (b : Rect) (cap : ℕ) (objs : List ℕ) (range : Rect) (i : ℕ) :
    i ∈ QuadTree.query store (.leaf b cap objs) range [] ↔
      QuadTree.intersects b range = true ∧ i ∈ objs ∧
        QuadTree.intersects range (rectAt store i) = true := by
  by_cases h : QuadTree.intersects b range
  · simp [QuadTree.query, h, List.mem_filter]
  · simp [QuadTree.query, h]

theorem mem_query_node (store : Store) (b : Rect) (cap : ℕ) (objs : List ℕ)
    (nw ne sw se : QT) (range : Rect) (i : ℕ) :
    i ∈ QuadTree.query store (.node b cap objs nw ne sw se) range [] ↔
      QuadTree.intersects b range = true ∧
        ((i ∈ objs ∧ QuadTree.intersects range (rectAt store i) = true) ∨
          i ∈ QuadTree.query store nw range [] ∨ i ∈ QuadTree.query store ne range [] ∨
          i ∈ QuadTree.query store sw range [] ∨ i ∈ QuadTree.query store se range []) := by
  by_cases h : QuadTree.intersects b range
  · simp only [QuadTree.query, h, if_pos]
    rw [query_append store se, query_append store sw, query_append store ne,
      query_append store nw]
    simp [List.mem_filter, List.mem_append, and_assoc, or_assoc]
  · simp [QuadTree.query, h]

theorem query_sound (store : Store) (range : Rect) :
    ∀ (t : QT) (i : ℕ), i ∈ QuadTree.query store t range [] →
      QuadTree.intersects range (rectAt store i) = true := by
  intro t
  induction t with
  | leaf b cap objs =>
    intro i h
    exact ((mem_query_leaf store b cap objs range i).1 h).2.2
  | node b cap objs nw ne sw se ihnw ihne ihsw ihse =>
    intro i h
    rcases ((mem_query_node store b cap objs nw ne sw se range i).1 h).2 with
      h | h | h | h | h
    · exact h.2
    · exact ihnw i h
    · exact ihne i h
    · exact ihsw i h
    · exact ihse i h

/-- A rectangle with positive extent that overlaps a node's bounds overlaps
at least one of the four `subdivide` quadrants (strict-inequality test). -/
theorem quad_cover (b r : Rect) (hw : 0 < r.w) (hh : 0 < r.h)
    (h : QuadTree.intersects b r = true) :
    QuadTree.intersects (quadNW b) r = true ∨ QuadTree.intersects (quadNE b) r = true ∨
    QuadTree.intersects (quadSW b) r = true ∨ QuadTree.intersects (quadSE b) r = true := by
  rw [intersects_iff] at h
  obtain ⟨h1, h2, h3, h4⟩ := h
  rcases lt_or_le r.x (b.x + b.w / 2) with hx | hx <;>
    rcases lt_or_le r.y (b.y + b.h / 2) with hy | hy
  · exact Or.inl (by rw [intersects_iff]; refine ⟨?_, ?_, ?_, ?_⟩ <;> simp [quadNW] <;> linarith)
  · refine Or.inr (Or.inr (Or.inl ?_))
    rw [intersects_iff]; refine ⟨?_, ?_, ?_, ?_⟩ <;> simp [quadSW] <;> linarith
  · refine Or.inr (Or.inl ?_)
    rw [intersects_iff]; refine ⟨?_, ?_, ?_, ?_⟩ <;> simp [quadNE] <;> linarith
  · refine Or.inr (Or.inr (Or.inr ?_))
    rw [intersects_iff]; refine ⟨?_, ?_, ?_, ?_⟩ <;> simp [quadSE] <;> linarith

/-- `insert` never changes a node's bounds. -/
theorem insert_bounds (store : Store) :
    ∀ (t : QT) (j : ℕ), (QuadTree.insert store t j).1.boundsOf = t.boundsOf := by
  intro t
  induction t with
  | leaf b cap objs =>
    intro j
    by_cases hb : QuadTree.intersects b (rectAt store j)
    · by_cases hlen : objs.length < cap
      · simp [QuadTree.insert, hb, hlen, QT.boundsOf]
      · simp only [QuadTree.insert, hb, if_true, hlen, if_false]
        rcases h1 : insertFresh (quadNW b) store j with ⟨nw1, b1⟩
        rcases b1 <;>
          [skip; simp [h1, QT.boundsOf]]
        rcases h2 : insertFresh (quadNE b) store j with ⟨ne1, b2⟩
        rcases b2 <;>
          [skip; simp [h1, h2, QT.boundsOf]]
        rcases h3 : insertFresh (quadSW b) store j with ⟨sw1, b3⟩
        rcases b3 <;>
          [skip; simp [h1, h2, h3, QT.boundsOf]]
        rcases h4 : insertFresh (quadSE b) store j with ⟨se1, b4⟩
        simp [h1, h2, h3, h4, QT.boundsOf]
    · simp [QuadTree.insert, hb, QT.boundsOf]
  | node b cap objs nw ne sw se ihnw ihne ihsw ihse =>
    intro j
    by_cases hb : QuadTree.intersects b (rectAt store j)
    · simp only [QuadTree.insert, hb, if_true]
      rcases h1 : QuadTree.insert store nw j with ⟨nw1, b1⟩
      rcases b1 <;>
        [skip; simp [QT.boundsOf]]
      rcases h2 : QuadTree.insert store ne j with ⟨ne1, b2⟩
      rcases b2 <;>
        [skip; simp [QT.boundsOf]]
      rcases h3 : QuadTree.insert store sw j with ⟨sw1, b3⟩
      rcases b3 <;>
        [skip; simp [QT.boundsOf]]
      rcases h4 : QuadTree.insert store se j with ⟨se1, b4⟩
      simp [QT.boundsOf]
    · simp [QuadTree.insert, hb, QT.boundsOf]

/-- `insert` preserves well-formedness: subdivision is the only way children
appear and it creates exactly the four quadrant leaves. -/
theorem insert_WF (store : Store) :
    ∀ (t : QT) (j : ℕ), WF t → WF (QuadTree.insert store t j).1 := by
  intro t
  induction t with
  | leaf b cap objs =>
    intro j _
    by_cases hb : QuadTree.intersects b (rectAt store j)
    · by_cases hlen : objs.length < cap
      · simp only [QuadTree.insert, hb, if_true, hlen]
        exact WF.leaf
      · simp only [QuadTree.insert, hb, if_true, hlen, if_false]
        have fb : ∀ c : Rect, ((insertFresh c store j).1).boundsOf = c := by
          intro c
          by_cases hc : QuadTree.intersects c (rectAt store j) <;>
            simp [insertFresh, hc, QT.boundsOf]
        have fw : ∀ c : Rect, WF ((insertFresh c store j).1) := by
          intro c
          by_cases hc : QuadTree.intersects c (rectAt store j) <;>
            simp [insertFresh, hc] <;> exact WF.leaf
        rcases h1 : insertFresh (quadNW b) store j with ⟨nw1, b1⟩
        have hwnw : WF nw1 := by rw [show nw1 = (insertFresh (quadNW b) store j).1 by rw [h1]]; exact fw _
        have hbnw : nw1.boundsOf = quadNW b := by rw [show nw1 = (insertFresh (quadNW b) store j).1 by rw [h1]]; exact fb _
        rcases b1
        · rcases h2 : insertFresh (quadNE b) store j with ⟨ne1, b2⟩
          have hwne : WF ne1 := by rw [show ne1 = (insertFresh (quadNE b) store j).1 by rw [h2]]; exact fw _
          have hbne : ne1.boundsOf = quadNE b := by rw [show ne1 = (insertFresh (quadNE b) store j).1 by rw [h2]]; exact fb _
          rcases b2
          · rcases h3 : insertFresh (quadSW b) store j with ⟨sw1, b3⟩
            have hwsw : WF sw1 := by rw [show sw1 = (insertFresh (quadSW b) store j).1 by rw [h3]]; exact fw _
            have hbsw : sw1.boundsOf = quadSW b := by rw [show sw1 = (insertFresh (quadSW b) store j).1 by rw [h3]]; exact fb _
            rcases b3
            · rcases h4 : insertFresh (quadSE b) store j with ⟨se1, b4⟩
              have hwse : WF se1 := by rw [show se1 = (insertFresh (quadSE b) store j).1 by rw [h4]]; exact fw _
              have hbse : se1.boundsOf = quadSE b := by rw [show se1 = (insertFresh (quadSE b) store j).1 by rw [h4]]; exact fb _
              exact WF.node hbnw hbne hbsw hbse hwnw hwne hwsw hwse
            · exact WF.node hbnw hbne hbsw (by simp [QT.boundsOf]) hwnw hwne hwsw WF.leaf
          · exact WF.node hbnw hbne (by simp [QT.boundsOf]) (by simp [QT.boundsOf]) hwnw hwne WF.leaf WF.leaf
        · exact WF.node hbnw (by simp [QT.boundsOf]) (by simp [QT.boundsOf]) (by simp [QT.boundsOf]) hwnw WF.leaf WF.leaf WF.leaf
    · simp only [QuadTree.insert, hb, if_false]
      exact WF.leaf
  | node b cap objs nw ne sw se ihnw ihne ihsw ihse =>
    intro j hwf
    rcases hwf with _ | ⟨hbnw, hbne, hbsw, hbse, hwnw, hwne, hwsw, hwse⟩
    by_cases hb : QuadTree.intersects b (rectAt store j)
    · simp only [QuadTree.insert, hb, if_true]
      have bnw : ((QuadTree.insert store nw j).1).boundsOf = quadNW b := by
        rw [insert_bounds store nw j]; exact hbnw
      have bne : ((QuadTree.insert store ne j).1).boundsOf = quadNE b := by
        rw [insert_bounds store ne j]; exact hbne
      have bsw : ((QuadTree.insert store sw j).1).boundsOf = quadSW b := by
        rw [insert_bounds store sw j]; exact hbsw
      have bse : ((QuadTree.insert store se j).1).boundsOf = quadSE b := by
        rw [insert_bounds store se j]; exact hbse
      rcases h1 : QuadTree.insert store nw j with ⟨nw1, b1⟩
      rw [h1] at bnw
      have wnw1 : WF nw1 := by
        have := ihnw j hwnw; rw [h1] at this; exact this
      rcases b1
      · rcases h2 : QuadTree.insert store ne j with ⟨ne1, b2⟩
        rw [h2] at bne
        have wne1 : WF ne1 := by
          have := ihne j hwne; rw [h2] at this; exact this
        rcases b2
        · rcases h3 : QuadTree.insert store sw j with ⟨sw1, b3⟩
          rw [h3] at bsw
          have wsw1 : WF sw1 := by
            have := ihsw j hwsw; rw [h3] at this; exact this
          rcases b3
          · rcases h4 : QuadTree.insert store se j with ⟨se1, b4⟩
            rw [h4] at bse
            have wse1 : WF se1 := by
              have := ihse j hwse; rw [h4] at this; exact this
            exact WF.node bnw bne bsw bse wnw1 wne1 wsw1 wse1
          · exact WF.node bnw bne bsw hbse wnw1 wne1 wsw1 hwse
        · exact WF.node bnw bne hbsw hbse wnw1 wne1 hwsw hwse
      · exact WF.node bnw hbne hbsw hbse wnw1 hwne hwsw hwse
    · simp only [QuadTree.insert, hb, if_false]
      exact WF.node hbnw hbne hbsw hbse hwnw hwne hwsw hwse

/-- If an insertion succeeded, the inserted reference is discoverable by a
query over the object's own rectangle (positive extent): every node on the
insertion path passed the same strict-overlap test the query repeats. -/
theorem insert_found (store : Store) :
    ∀ (t : QT) (j : ℕ),
      QuadTree.intersects (rectAt store j) (rectAt store j) = true →
      (QuadTree.insert store t j).2 = true →
      j ∈ QuadTree.query store (QuadTree.insert store t j).1 (rectAt store j) [] := by
  intro t
  induction t with
  | leaf b cap objs =>
    intro j hself hins
    by_cases hb : QuadTree.intersects b (rectAt store j)
    · by_cases hlen : objs.length < cap
      · simp only [QuadTree.insert, hb, if_true, hlen] at hins ⊢
        rw [mem_query_leaf]
        exact ⟨hb, by simp, hself⟩
      · simp only [QuadTree.insert, hb, if_true, hlen, if_false] at hins ⊢
        have hfresh : ∀ c : Rect, (insertFresh c store j).2 = true →
            j ∈ QuadTree.query store (insertFresh c store j).1 (rectAt store j) [] := by
          intro c hc
          by_cases hic : QuadTree.intersects c (rectAt store j)
          · simp only [insertFresh, hic, if_true]
            rw [mem_query_leaf]
            exact ⟨hic, by simp, hself⟩
          · simp [insertFresh, hic] at hc
        rcases h1 : insertFresh (quadNW b) store j with ⟨nw1, b1⟩
        rcases b1
        · rcases h2 : insertFresh (quadNE b) store j with ⟨ne1, b2⟩
          rcases b2
          · rcases h3 : insertFresh (quadSW b) store j with ⟨sw1, b3⟩
            rcases b3
            · rcases h4 : insertFresh (quadSE b) store j with ⟨se1, b4⟩
              rcases b4
              · rw [h1, h2, h3, h4] at hins
                simp at hins
              · rw [mem_query_node]
                refine ⟨hb, Or.inr (Or.inr (Or.inr (Or.inr ?_)))⟩
                have := hfresh (quadSE b) (by rw [h4])
                rw [h4] at this
                exact this
            · rw [mem_query_node]
              refine ⟨hb, Or.inr (Or.inr (Or.inr (Or.inl ?_)))⟩
              have := hfresh (quadSW b) (by rw [h3])
              rw [h3] at this
              exact this
          · rw [mem_query_node]
            refine ⟨hb, Or.inr (Or.inr (Or.inl ?_))⟩
            have := hfresh (quadNE b) (by rw [h2])
            rw [h2] at this
            exact this
        · rw [mem_query_node]
          refine ⟨hb, Or.inr (Or.inl ?_)⟩
          have := hfresh (quadNW b) (by rw [h1])
          rw [h1] at this
          exact this
    · simp [QuadTree.insert, hb] at hins
  | node b cap objs nw ne sw se ihnw ihne ihsw ihse =>
    intro j hself hins
    by_cases hb : QuadTree.intersects b (rectAt store j)
    · simp only [QuadTree.insert, hb, if_true] at hins ⊢
      rcases h1 : QuadTree.insert store nw j with ⟨nw1, b1⟩
      rcases b1
      · rcases h2 : QuadTree.insert store ne j with ⟨ne1, b2⟩
        rcases b2
        · rcases h3 : QuadTree.insert store sw j with ⟨sw1, b3⟩
          rcases b3
          · rcases h4 : QuadTree.insert store se j with ⟨se1, b4⟩
            rcases b4
            · rw [h1, h2, h3, h4] at hins
              simp at hins
            · rw [mem_query_node]
              refine ⟨hb, Or.inr (Or.inr (Or.inr (Or.inr ?_)))⟩
              have := ihse j hself (by rw [h4])
              rw [h4] at this
              exact this
          · rw [mem_query_node]
            refine ⟨hb, Or.inr (Or.inr (Or.inr (Or.inl ?_)))⟩
            have := ihsw j hself (by rw [h3])
            rw [h3] at this
            exact this
        · rw [mem_query_node]
          refine ⟨hb, Or.inr (Or.inr (Or.inl ?_))⟩
          have := ihne j hself (by rw [h2])
          rw [h2] at this
          exact this
      · rw [mem_query_node]
        refine ⟨hb, Or.inr (Or.inl ?_)⟩
        have := ihnw j hself (by rw [h1])
        rw [h1] at this
        exact this
    · simp [QuadTree.insert, hb] at hins

/-- Queries only ever gain results under insertion: `insert` appends to a
node's object list or subdivides a leaf while keeping its objects in place,
so anything previously discoverable stays discoverable. -/
theorem query_mono (store : Store) (range : Rect) :
    ∀ (t : QT) (i j : ℕ), i ∈ QuadTree.query store t range [] →
      i ∈ QuadTree.query store (QuadTree.insert store t j).1 range [] := by
  intro t
  induction t with
  | leaf b cap objs =>
    intro i j hmem
    rw [mem_query_leaf] at hmem
    obtain ⟨hbr, hio, hir⟩ := hmem
    by_cases hb : QuadTree.intersects b (rectAt store j)
    · by_cases hlen : objs.length < cap
      · simp only [QuadTree.insert, hb, if_true, hlen]
        rw [mem_query_leaf]
        exact ⟨hbr, List.mem_append_left _ hio, hir⟩
      · simp only [QuadTree.insert, hb, if_true, hlen, if_false]
        rcases h1 : insertFresh (quadNW b) store j with ⟨nw1, b1⟩
        rcases b1
        · rcases h2 : insertFresh (quadNE b) store j with ⟨ne1, b2⟩
          rcases b2
          · rcases h3 : insertFresh (quadSW b) store j with ⟨sw1, b3⟩
            rcases b3
            · rcases h4 : insertFresh (quadSE b) store j with ⟨se1, b4⟩
              rw [mem_query_node]
              exact ⟨hbr, Or.inl ⟨hio, hir⟩⟩
            · rw [mem_query_node]
              exact ⟨hbr, Or.inl ⟨hio, hir⟩⟩
          · rw [mem_query_node]
            exact ⟨hbr, Or.inl ⟨hio, hir⟩⟩
        · rw [mem_query_node]
          exact ⟨hbr, Or.inl ⟨hio, hir⟩⟩
    · simp [QuadTree.insert, hb]
      rw [mem_query_leaf]
      exact ⟨hbr, hio, hir⟩
  | node b cap objs nw ne sw se ihnw ihne ihsw ihse =>
    intro i j hmem
    rw [mem_query_node] at hmem
    obtain ⟨hbr, hrest⟩ := hmem
    by_cases hb : QuadTree.intersects b (rectAt store j)
    · simp only [QuadTree.insert, hb, if_true]
      rcases h1 : QuadTree.insert store nw j with ⟨nw1, b1⟩
      have mnw : ∀ hi : i ∈ QuadTree.query store nw range [],
          i ∈ QuadTree.query store nw1 range [] := by
        intro hi
        have := ihnw i j hi
        rw [h1] at this
        exact this
      rcases b1
      · rcases h2 : QuadTree.insert store ne j with ⟨ne1, b2⟩
        have mne : ∀ hi : i ∈ QuadTree.query store ne range [],
            i ∈ QuadTree.query store ne1 range [] := by
          intro hi
          have := ihne i j hi
          rw [h2] at this
          exact this
        rcases b2
        · rcases h3 : QuadTree.insert store sw j with ⟨sw1, b3⟩
          have msw : ∀ hi : i ∈ QuadTree.query store sw range [],
              i ∈ QuadTree.query store sw1 range [] := by
            intro hi
            have := ihsw i j hi
            rw [h3] at this
            exact this
          rcases b3
          · rcases h4 : QuadTree.insert store se j with ⟨se1, b4⟩
            have mse : ∀ hi : i ∈ QuadTree.query store se range [],
                i ∈ QuadTree.query store se1 range [] := by
              intro hi
              have := ihse i j hi
              rw [h4] at this
              exact this
            rw [mem_query_node]
            refine ⟨hbr, ?_⟩
            rcases hrest with h | h | h | h | h
            · exact Or.inl h
            · exact Or.inr (Or.inl (mnw h))
            · exact Or.inr (Or.inr (Or.inl (mne h)))
            · exact Or.inr (Or.inr (Or.inr (Or.inl (msw h))))
            · exact Or.inr (Or.inr (Or.inr (Or.inr (mse h))))
          · rw [mem_query_node]
            refine ⟨hbr, ?_⟩
            rcases hrest with h | h | h | h | h
            · exact Or.inl h
            · exact Or.inr (Or.inl (mnw h))
            · exact Or.inr (Or.inr (Or.inl (mne h)))
            · exact Or.inr (Or.inr (Or.inr (Or.inl (msw h))))
            · exact Or.inr (Or.inr (Or.inr (Or.inr h)))
        · rw [mem_query_node]
          refine ⟨hbr, ?_⟩
          rcases hrest with h | h | h | h | h
          · exact Or.inl h
          · exact Or.inr (Or.inl (mnw h))
          · exact Or.inr (Or.inr (Or.inl (mne h)))
          · exact Or.inr (Or.inr (Or.inr (Or.inl h)))
          · exact Or.inr (Or.inr (Or.inr (Or.inr h)))
      · rw [mem_query_node]
        refine ⟨hbr, ?_⟩
        rcases hrest with h | h | h | h | h
        · exact Or.inl h
        · exact Or.inr (Or.inl (mnw h))
        · exact Or.inr (Or.inr (Or.inl h))
        · exact Or.inr (Or.inr (Or.inr (Or.inl h)))
        · exact Or.inr (Or.inr (Or.inr (Or.inr h)))
    · simp [QuadTree.insert, hb]
      rw [mem_query_node]
      exact ⟨hbr, hrest⟩

/-- On a well-formed tree, inserting an object with positive extent that
overlaps the node bounds always succeeds: the quadrant cover guarantees some
child accepts it, and `.some` finds the first such child. -/
theorem insert_success (store : Store) :
    ∀ (t : QT) (j : ℕ), WF t →
      0 < (rectAt store j).w → 0 < (rectAt store j).h →
      QuadTree.intersects t.boundsOf (rectAt store j) = true →
      (QuadTree.insert store t j).2 = true := by
  intro t
  induction t with
  | leaf b cap objs =>
    intro j _ hw hh hb
    rw [show (QT.leaf b cap objs).boundsOf = b from rfl] at hb
    by_cases hlen : objs.length < cap
    · simp [QuadTree.insert, hb, hlen]
    · simp only [QuadTree.insert, hb, if_true, hlen, if_false]
      rcases quad_cover b (rectAt store j) hw hh hb with hq | hq | hq | hq
      · simp [insertFresh, hq]
      · rcases h1 : insertFresh (quadNW b) store j with ⟨nw1, b1⟩
        rcases b1
        · simp [insertFresh, hq]
        · simp
      · rcases h1 : insertFresh (quadNW b) store j with ⟨nw1, b1⟩
        rcases b1
        · rcases h2 : insertFresh (quadNE b) store j with ⟨ne1, b2⟩
          rcases b2
          · simp [insertFresh, hq]
          · simp
        · simp
      · rcases h1 : insertFresh (quadNW b) store j with ⟨nw1, b1⟩
        rcases b1
        · rcases h2 : insertFresh (quadNE b) store j with ⟨ne1, b2⟩
          rcases b2
          · rcases h3 : insertFresh (quadSW b) store j with ⟨sw1, b3⟩
            rcases b3
            · simp [insertFresh, hq]
            · simp
          · simp
        · simp
  | node b cap objs nw ne sw se ihnw ihne ihsw ihse =>
    intro j hwf hw hh hb
    rcases hwf with _ | ⟨hbnw, hbne, hbsw, hbse, hwnw, hwne, hwsw, hwse⟩
    rw [show (QT.node b cap objs nw ne sw se).boundsOf = b from rfl] at hb
    simp only [QuadTree.insert, hb, if_true]
    rcases quad_cover b (rectAt store j) hw hh hb with hq | hq | hq | hq
    · have := ihnw j hwnw hw hh (by rw [hbnw]; exact hq)
      rcases h1 : QuadTree.insert store nw j with ⟨nw1, b1⟩
      rw [h1] at this
      rcases b1
      · simp at this
      · simp
    · rcases h1 : QuadTree.insert store nw j with ⟨nw1, b1⟩
      rcases b1
      · have := ihne j hwne hw hh (by rw [hbne]; exact hq)
        rcases h2 : QuadTree.insert store ne j with ⟨ne1, b2⟩
        rw [h2] at this
        rcases b2
        · simp at this
        · simp
      · simp
    · rcases h1 : QuadTree.insert store nw j with ⟨nw1, b1⟩
      rcases b1
      · rcases h2 : QuadTree.insert store ne j with ⟨ne1, b2⟩
        rcases b2
        · have := ihsw j hwsw hw hh (by rw [hbsw]; exact hq)
          rcases h3 : QuadTree.insert store sw j with ⟨sw1, b3⟩
          rw [h3] at this
          rcases b3
          · simp at this
          · simp
        · simp
      · simp
    · rcases h1 : QuadTree.insert store nw j with ⟨nw1, b1⟩
      rcases b1
      · rcases h2 : QuadTree.insert store ne j with ⟨ne1, b2⟩
        rcases b2
        · rcases h3 : QuadTree.insert store sw j with ⟨sw1, b3⟩
          rcases b3
          · have := ihse j hwse hw hh (by rw [hbse]; exact hq)
            rcases h4 : QuadTree.insert store se j with ⟨se1, b4⟩
            rw [h4] at this
            exact this
          · simp
        · simp
      · simp

/-- `foldInsert` preserves well-formedness and bounds. -/
theorem foldInsert_WF (store : Store) :
    ∀ (l : List ℕ) (t : QT), WF t → WF (foldInsert store l t) := by
  intro l
  induction l with
  | nil => intro t h; exact h
  | cons a l ih =>
    intro t h
    exact ih _ (insert_WF store t a h)

/-- `foldInsert` preserves the root bounds. -/
theorem foldInsert_bounds (store : Store) :
    ∀ (l : List ℕ) (t : QT), (foldInsert store l t).boundsOf = t.boundsOf := by
  intro l
  induction l with
  | nil => intro t; rfl
  | cons a l ih =>
    intro t
    rw [show foldInsert store (a :: l) t = foldInsert store l (QuadTree.insert store t a).1 from rfl,
      ih, insert_bounds]

/-- Queries only gain results along a `foldInsert`. -/
theorem foldInsert_mono (store : Store) (range : Rect) :
    ∀ (l : List ℕ) (t : QT) (i : ℕ), i ∈ QuadTree.query store t range [] →
      i ∈ QuadTree.query store (foldInsert store l t) range [] := by
  intro l
  induction l with
  | nil => intro t i h; exact h
  | cons a l ih =>
    intro t i h
    exact ih _ i (query_mono store range t i a h)

/-- Every reference in the insertion list whose object has positive extent
and overlaps the (well-formed) root bounds is discoverable, after the fold,
by a query over its own rectangle. -/
theorem foldInsert_finds (store : Store) :
    ∀ (l : List ℕ) (t : QT) (j : ℕ), j ∈ l → WF t →
      0 < (rectAt store j).w → 0 < (rectAt store j).h →
      QuadTree.intersects t.boundsOf (rectAt store j) = true →
      j ∈ QuadTree.query store (foldInsert store l t) (rectAt store j) [] := by
  intro l
  induction l with
  | nil => intro t j h; cases h
  | cons a l ih =>
    intro t j hmem hwf hw hh hb
    rcases List.mem_cons.1 hmem with rfl | hmem
    · have hsucc := insert_success store t j hwf hw hh hb
      have hself : QuadTree.intersects (rectAt store j) (rectAt store j) = true := by
        rw [intersects_iff]
        refine ⟨by linarith, by linarith, by linarith, by linarith⟩
      have hfound := insert_found store t j hself hsucc
      exact foldInsert_mono store (rectAt store j) l _ j hfound
    · exact ih _ j hmem (insert_WF store t a hwf) hw hh (by rw [insert_bounds]; exact hb)

/-- `buildTree` discoverability: every object with positive extent whose
rectangle overlaps the index bounds is returned by a query over that
rectangle after the rebuild. -/
theorem buildTree_finds (store : Store) (bounds : Rect) (j : ℕ)
    (hj : j < store.length)
    (hw : 0 < (rectAt store j).w) (hh : 0 < (rectAt store j).h)
    (hb : QuadTree.intersects bounds (rectAt store j) = true) :
    j ∈ QuadTree.query store (buildTree store bounds) (rectAt store j) [] := by
  exact foldInsert_finds store (List.range store.length) (.leaf bounds 4 [])
    j (List.mem_range.2 hj) WF.leaf hw hh hb

/-- `buildTree` soundness: everything a query returns overlaps the range. -/
theorem buildTree_sound (store : Store) (bounds range : Rect) (i : ℕ)
    (h : i ∈ QuadTree.query store (buildTree store bounds) range []) :
    QuadTree.intersects range (rectAt store i) = true :=
  query_sound store range _ i h

/-- Claim C1 (code_bug evidence): containment fails across a subdivision
boundary.  With the index bounds 100×100 and capacity 4, after four inserts
fill the root, inserting R = ⟨40, 10, 20, 20⟩ (which straddles the x = 50
quadrant boundary) subdivides the root and — because `Array.prototype.some`
short-circuits — files R only into the NW child.  R was accepted (a query
over R's own rectangle returns it), the query range ⟨55, 12, 4, 4⟩ overlaps
R, yet `query` returns the empty list, because the NW child is pruned. -/
theorem c1_containment_bug :
    QuadTree.intersects rangeC1 (rectAt storeC1 4) = true ∧
    QuadTree.query storeC1 (buildTree storeC1 boundsC1) (rectAt storeC1 4) [] = [4] ∧
    QuadTree.query storeC1 (buildTree storeC1 boundsC1) rangeC1 [] = [] := by
  refine ⟨?_, ?_, ?_⟩ <;> with_unfolding_all rfl

/-- Claim C9 (counterexample): a degenerate query range of zero width and
zero height placed strictly inside a stored 10×10 block is *not* answered
with an empty result — the strict-inequality overlap test passes on all four
comparisons and the block is returned. -/
theorem c9_degenerate_query_cex :
    rangeC9.w = 0 ∧ rangeC9.h = 0 ∧
    QuadTree.query storeC9 (buildTree storeC9 boundsC1) rangeC9 [] = [0] := by
  refine ⟨?_, ?_, ?_⟩ <;> with_unfolding_all rfl

/-- Claim C9 (amended): a degenerate (zero-width or zero-height) query range
is answered without error, but the result is not always empty: every
reference the query returns strictly overlaps the range under the code's
strict-inequality test, and whenever no stored object strictly overlaps the
range the result is empty. -/
theorem c9_degenerate_query_amended (store : Store) (t : QT) (range : Rect)
    (_hdeg : range.w = 0 ∨ range.h = 0) :
    (∀ i ∈ QuadTree.query store t range [],
      QuadTree.intersects range (rectAt store i) = true) ∧
    ((∀ i, QuadTree.intersects range (rectAt store i) = false) →
      QuadTree.query store t range [] = []) := by
  refine ⟨fun i hi => query_sound store range t i hi, fun hnone => ?_⟩
  refine List.eq_nil_iff_forall_not_mem.2 fun i hi => ?_
  have hs := query_sound store range t i hi
  rw [hnone i] at hs
  exact Bool.false_ne_true hs

/-- Claim C9 amended, witness: the general theorem applied to the
counterexample store and the degenerate range ⟨0, 5, 0, 2⟩ sitting on the
stored block's left border: nothing strictly overlaps it, and the query
indeed answers with the empty list. -/
theorem c9_degenerate_query_amended_witness :
    ((⟨0, 5, 0, 2⟩ : Rect).w = 0 ∨ (⟨0, 5, 0, 2⟩ : Rect).h = 0) ∧
    (∀ i ∈ QuadTree.query storeC9 (buildTree storeC9 boundsC1) ⟨0, 5, 0, 2⟩ [],
      QuadTree.intersects ⟨0, 5, 0, 2⟩ (rectAt storeC9 i) = true) ∧
    QuadTree.query storeC9 (buildTree storeC9 boundsC1) ⟨0, 5, 0, 2⟩ [] = [] := by
  have hnone : ∀ i, QuadTree.intersects ⟨0, 5, 0, 2⟩ (rectAt storeC9 i) = false := by
    intro i
    cases i with
    | zero => with_unfolding_all rfl
    | succ n =>
      have hd : storeC9.getD (n + 1) defaultObj = defaultObj := by
        rw [List.getD_eq_getElem?_getD, List.getElem?_eq_none (by simp [storeC9])]
        rfl
      show QuadTree.intersects ⟨0, 5, 0, 2⟩ (rectOf (storeC9.getD (n + 1) defaultObj)) = false
      rw [hd]
      with_unfolding_all rfl
  have h := c9_degenerate_query_amended storeC9 (buildTree storeC9 boundsC1) ⟨0, 5, 0, 2⟩
    (Or.inl rfl)
  exact ⟨Or.inl rfl, h.1, h.2 hnone⟩

/-- Claim C4 (code_bug evidence): non-penetration fails.  One 30×30 block at
the origin, actor centre (31, 31) with a 27×27 hitbox spanning
[17.5, 44.5]² — clearly interpenetrating the block.  The X pass tests
`{...bbox, x: this.x}` (left edge replaced by the centre, x-extent
[31, 58]) and the Y pass tests `{...bbox, y: this.y}` (y-extent [31, 58]);
both boxes miss the block, so neither pass snaps, and after both passes the
actor's real bounding box still overlaps the block. -/
theorem c4_non_penetration_bug :
    Player.collide (getBBox (collisionResolve storeC4 (buildTree storeC4 ⟨0, 0, 600, 420⟩) pC4))
        (rectOf blockC4) = true ∧
    (collisionResolve storeC4 (buildTree storeC4 ⟨0, 0, 600, 420⟩) pC4).x = 31 ∧
    (collisionResolve storeC4 (buildTree storeC4 ⟨0, 0, 600, 420⟩) pC4).y = 31 := by
  refine ⟨?_, ?_, ?_⟩ <;> with_unfolding_all rfl

/-- Claim C6 (code_bug evidence): live inputs and their replay do not match.
The freshly reset player is grounded with `vy = 0`.  A live release calls
nothing, leaving the player unchanged; the replay of the recorded
`release` event calls `jump(false)`, which on a grounded player fires the
full cube jump impulse, setting `vy = -11.2`.  The two runs therefore
diverge from identical states on identical recorded input timings. -/
theorem c6_replay_divergence_bug :
    pC6.onGround = true ∧ pC6.vy = 0 ∧
    handleInputPlayer false pC6 = pC6 ∧
    (replayAction "release" pC6).vy = -112/10 := by
  refine ⟨?_, ?_, ?_, ?_⟩ <;> with_unfolding_all rfl

/-- Claim C7: `addParticle` activates at most as many slots as remaining
capacity allows; starting from `active ≤ poolLen` the resulting count is
`min poolLen (active + count)`, and the loop never errors (it breaks). -/
theorem c7_particle_pool_bound (poolLen active count : ℕ) (h : active ≤ poolLen) :
    addParticleCount poolLen active count = min poolLen (active + count) := by
  induction count generalizing active with
  | zero =>
    simp [addParticleCount]
    omega
  | succ c ih =>
    by_cases hfull : poolLen ≤ active
    · simp [addParticleCount, hfull]
      omega
    · have h1 : active + 1 ≤ poolLen := by omega
      simp [addParticleCount, hfull, ih (active + 1) h1]
      omega

/-- Claim C7, witness: requesting 1500 particles at capacity 1000 with 0
active yields exactly 1000 active particles. -/
theorem c7_particle_pool_bound_witness :
    (0 : ℕ) ≤ 1000 ∧ addParticleCount 1000 0 1500 = 1000 := by
  refine ⟨by omega, ?_⟩
  rw [c7_particle_pool_bound 1000 0 1500 (by omega)]
  omega

/-- `if (o.used) return;` — dispatching an already-used object changes
nothing at all (script.js line 632). -/
theorem handleObject_used (p : Player) (g : Game) (o : Obj) (h : o.used = true) :
    handleObject p g o = (p, g, o) := by
  simp [handleObject, h]

/-- `handleObject` returns the object with `used` set and every other field
unchanged, whatever its kind — including kinds with no dispatch branch. -/
theorem handleObject_obj (p : Player) (g : Game) (o : Obj) :
    (handleObject p g o).2.2 = {o with used := true} := by
  by_cases h : o.used
  · rw [handleObject_used p g o h]
    cases o
    simp_all
  · simp only [handleObject, h, Bool.false_eq_true, if_false]
    split_ifs <;> rfl

/-- First contact with a fresh spike: `used` flips and death is signalled. -/
theorem handleObject_spike (p : Player) (g : Game) (o : Obj)
    (htype : o.type = "spike") (hused : o.used = false) :
    handleObject p g o = (p, dieG g p.x p.y, {o with used := true}) := by
  simp [handleObject, hused, htype]

/-- Iterated contact with a used object stays a no-op forever. -/
theorem contactIter_used (n : ℕ) (p : Player) (g : Game) (o : Obj) (h : o.used = true) :
    contactIter n (p, g, o) = (p, g, o) := by
  induction n with
  | zero => rfl
  | succ m ih =>
    show contactIter m _ = _
    rw [handleObject_used p g o h]
    exact ih

/-- `handleTrigger` on an already-used trigger changes nothing. -/
theorem handleTrigger_used (g : Game) (i : ℕ) (o : Obj)
    (hsome : g.level.objects[i]? = some o) (hused : o.used = true) :
    handleTrigger g i = g := by
  simp [handleTrigger, hsome, hused]

/-- Claim C3: one-shot idempotence.  (1) dispatching contact on any object
whose `used` flag is already true is a no-op on the player, the game state
and the object; (2) likewise for `handleTrigger`; (3) a fresh spike signals
death exactly once over any positive number of consecutive overlapping
frames: the death counter rises by exactly one, however many contacts
follow, because the first contact sets `used` (only a full level reset
builds fresh objects with clear flags). -/
theorem c3_one_shot_idempotence :
    (∀ (p : Player) (g : Game) (o : Obj), o.used = true → handleObject p g o = (p, g, o)) ∧
    (∀ (g : Game) (i : ℕ) (o : Obj),
      g.level.objects[i]? = some o → o.used = true → handleTrigger g i = g) ∧
    (∀ (p : Player) (g : Game) (o : Obj) (n : ℕ), o.type = "spike" → o.used = false →
      ((contactIter (n + 1) (p, g, o)).2.1).deaths = g.deaths + 1) := by
  refine ⟨handleObject_used, handleTrigger_used, ?_⟩
  intro p g o n htype hused
  show ((contactIter n _).2.1).deaths = g.deaths + 1
  rw [handleObject_spike p g o htype hused]
  rw [contactIter_used n p (dieG g p.x p.y) {o with used := true} rfl]
  simp [dieG, addParticle]

/-- Claim C3, witness: three consecutive frames of contact with a fresh
spike signal exactly one death. -/
theorem c3_one_shot_idempotence_witness :
    spikeC3.type = "spike" ∧ spikeC3.used = false ∧
    ((contactIter 3 (({} : Player), ({} : Game), spikeC3)).2.1).deaths = ({} : Game).deaths + 1 := by
  refine ⟨by with_unfolding_all rfl, by with_unfolding_all rfl, ?_⟩
  exact c3_one_shot_idempotence.2.2 {} {} spikeC3 2 (by with_unfolding_all rfl)
    (by with_unfolding_all rfl)

/-- Claim C5 (counterexample): contacting an orb whose `effect` is not a
recognized effect (`purple`) is *not* a no-op: 30 particles are spawned
(game state changes from 0 to 30 active) and the actor's `vy` is corrupted
to `NaN` (the `vyNaN` flag in this model), refuting the claim that all
actor state and all game state stay unchanged. -/
theorem c5_unknown_orb_effect_cex :
    orbC5.type = "orb" ∧ orbJumps "purple" = none ∧
    (handleObject ({} : Player) ({} : Game) orbC5).2.1.activeParticles = 30 ∧
    ({} : Game).activeParticles = 0 ∧
    (handleObject ({} : Player) ({} : Game) orbC5).1.vyNaN = true ∧
    ({} : Player).vyNaN = false := by
  refine ⟨?_, ?_, ?_, ?_, ?_, ?_⟩ <;> with_unfolding_all rfl

/-- Claim C5 (amended): (1) contact with an object of unknown kind changes
nothing except setting its `used` flag — player and game are untouched and
nothing fails; (2) likewise a portal with an unrecognized effect value;
(3) an orb with an unrecognized (non-dash) effect still sets `used`, spawns
30 particles, bumps the orb counter when it carries a truthy id, and sets
`vy` to `NaN` — but also never hard-fails.  (Every function here is total:
no contact stops the simulation.) -/
theorem c5_unknown_dispatch_amended :
    (∀ (p : Player) (g : Game) (o : Obj),
      o.type ≠ "portal" → o.type ≠ "tele" → o.type ≠ "orb" → o.type ≠ "pad" →
      o.type ≠ "coin" → o.type ≠ "finish" → o.type ≠ "spike" →
      handleObject p g o = (p, g, {o with used := true})) ∧
    (∀ (p : Player) (g : Game) (o : Obj),
      o.type = "portal" →
      o.effect ≠ some "gravity" → o.effect ≠ some "mini" → o.effect ≠ some "mirror" →
      o.effect ≠ some "dual" → o.effect ≠ some "speed" → o.effect ≠ some "mode" →
      handleObject p g o = (p, g, {o with used := true})) ∧
    (∀ (p : Player) (g : Game) (o : Obj),
      o.type = "orb" → o.used = false →
      o.effect.bind orbJumps = none → o.effect ≠ some "dash" →
      handleObject p g o =
        ({p with vy := 0, vyNaN := true},
         (if truthy o.id then
            {addParticle g o.x o.y "orb" 30 with orbs := (addParticle g o.x o.y "orb" 30).orbs + 1}
          else addParticle g o.x o.y "orb" 30),
         {o with used := true})) := by
  refine ⟨?_, ?_, ?_⟩
  · intro p g o h1 h2 h3 h4 h5 h6 h7
    by_cases hused : o.used
    · rw [handleObject_used p g o hused]
      cases o
      simp_all
    · simp [handleObject, hused, h1, h2, h3, h4, h5, h6, h7]
  · intro p g o htype h1 h2 h3 h4 h5 h6
    by_cases hused : o.used
    · rw [handleObject_used p g o hused]
      cases o
      simp_all
    · simp [handleObject, hused, htype, h1, h2, h3, h4, h5, h6]
  · intro p g o htype hused heff hdash
    simp [handleObject, hused, htype, heff, hdash]

/-- Claim C5 amended, witness: part (1) applied to a concrete object of the
unknown kind `mystery`: only the `used` flag changes. -/
theorem c5_unknown_dispatch_amended_witness :
    handleObject ({} : Player) ({} : Game) mysteryC5 =
      ({}, {}, {mysteryC5 with used := true}) := by
  exact c5_unknown_dispatch_amended.1 {} {} mysteryC5
    (by simp [mysteryC5]) (by simp [mysteryC5]) (by simp [mysteryC5])
    (by simp [mysteryC5]) (by simp [mysteryC5]) (by simp [mysteryC5])
    (by simp [mysteryC5])

theorem stepQ_pos : (0 : ℚ) < stepQ := by norm_num [stepQ]

theorem div_stepQ (acc : ℚ) : acc / stepQ = acc * 240 := by
  rw [stepQ]
  field_simp

/-- The fuel `⌊acc·240⌋` is exactly the number of iterations of the
`while (accumulator >= step)` loop, so any larger fuel computes the same
result: `drainGo` stabilises. -/
theorem drainGo_congr :
    ∀ (fuel : ℕ) (acc : ℚ), Int.toNat ⌊acc * 240⌋ ≤ fuel →
      drainGo fuel acc = drainGo (Int.toNat ⌊acc * 240⌋) acc := by
  intro fuel
  induction fuel with
  | zero =>
    intro acc hb
    have : Int.toNat ⌊acc * 240⌋ = 0 := by omega
    rw [this]
  | succ f ih =>
    intro acc hb
    by_cases hge : stepQ ≤ acc
    · have h1 : (1 : ℚ) ≤ acc * 240 := by
        rw [stepQ] at hge
        linarith
    
      have hfl1 : (1 : ℤ) ≤ ⌊acc * 240⌋ := Int.le_floor.2 (by exact_mod_cast h1)
      have heq : (acc - stepQ) * 240 = acc * 240 - 1 := by rw [stepQ]; ring
      have hfl : ⌊(acc - stepQ) * 240⌋ = ⌊acc * 240⌋ - 1 := by
        rw [heq, Int.floor_sub_one]
      have hk : Int.toNat ⌊acc * 240⌋ = Int.toNat ⌊(acc - stepQ) * 240⌋ + 1 := by
        omega
      have hb2 : Int.toNat ⌊(acc - stepQ) * 240⌋ ≤ f := by omega
      rw [hk]
      show (if stepQ ≤ acc then
          ((drainGo f (acc - stepQ)).1, (drainGo f (acc - stepQ)).2 + 1) else (acc, 0)) =
        (if stepQ ≤ acc then
          ((drainGo (Int.toNat ⌊(acc - stepQ) * 240⌋) (acc - stepQ)).1,
            (drainGo (Int.toNat ⌊(acc - stepQ) * 240⌋) (acc - stepQ)).2 + 1) else (acc, 0))
      rw [if_pos hge, if_pos hge, ih (acc - stepQ) hb2]
    · have hk : Int.toNat ⌊acc * 240⌋ = 0 := by
        have hlt : acc < stepQ := lt_of_not_le hge
        have : acc * 240 < 1 := by
          rw [stepQ] at hlt
          linarith
        have : ⌊acc * 240⌋ < 1 := Int.floor_lt.2 (by exact_mod_cast this)
        omega
      rw [hk]
      simp [drainGo, hge]

/-- The literal one-step unfolding of the source's `while` loop. -/
theorem drainAcc_unfold (acc : ℚ) :
    drainAcc acc =
      if stepQ ≤ acc then ((drainAcc (acc - stepQ)).1, (drainAcc (acc - stepQ)).2 + 1)
      else (acc, 0) := by
  by_cases hge : stepQ ≤ acc
  · rw [if_pos hge]
    have h1 : (1 : ℚ) ≤ acc * 240 := by
      rw [stepQ] at hge
      linarith
    have hfl1 : (1 : ℤ) ≤ ⌊acc * 240⌋ := Int.le_floor.2 (by exact_mod_cast h1)
    have heq : (acc - stepQ) * 240 = acc * 240 - 1 := by rw [stepQ]; ring
    have hfl : ⌊(acc - stepQ) * 240⌋ = ⌊acc * 240⌋ - 1 := by
      rw [heq, Int.floor_sub_one]
    have hk : Int.toNat ⌊acc * 240⌋ = Int.toNat ⌊(acc - stepQ) * 240⌋ + 1 := by
      omega
    show drainGo (Int.toNat ⌊acc * 240⌋) acc = _
    rw [hk]
    show (if stepQ ≤ acc then
        ((drainGo (Int.toNat ⌊(acc - stepQ) * 240⌋) (acc - stepQ)).1,
          (drainGo (Int.toNat ⌊(acc - stepQ) * 240⌋) (acc - stepQ)).2 + 1) else (acc, 0)) = _
    rw [if_pos hge]
    rfl
  · rw [if_neg hge]
    show drainGo (Int.toNat ⌊acc * 240⌋) acc = (acc, 0)
    cases hk : Int.toNat ⌊acc * 240⌋ <;> simp [drainGo, hge]

/-- Full characterisation of the drain: starting from a nonnegative
accumulator it performs exactly `⌊acc / step⌋` sub-steps, leaves
`acc - step·n` behind, and that remainder lies in `[0, step)`. -/
theorem drainGo_spec :
    ∀ (fuel : ℕ) (acc : ℚ), 0 ≤ acc → Int.toNat ⌊acc * 240⌋ ≤ fuel →
      (drainGo fuel acc).1 = acc - stepQ * (drainGo fuel acc).2 ∧
      0 ≤ (drainGo fuel acc).1 ∧ (drainGo fuel acc).1 < stepQ ∧
      ((drainGo fuel acc).2 : ℤ) = ⌊acc / stepQ⌋ := by
  intro fuel
  induction fuel with
  | zero =>
    intro acc h0 hb
    have hlt : acc < stepQ := by
      have h1 : ⌊acc * 240⌋ < 1 := by omega
      have h2 : acc * 240 < 1 := by exact_mod_cast Int.floor_lt.1 h1
      rw [stepQ]
      linarith
    refine ⟨by simp [drainGo], by simpa [drainGo] using h0, by simpa [drainGo] using hlt, ?_⟩
    show ((0 : ℕ) : ℤ) = ⌊acc / stepQ⌋
    rw [div_stepQ]
    have hf0 : ⌊acc * 240⌋ = 0 := by
      rw [Int.floor_eq_zero_iff, Set.mem_Ico]
      refine ⟨by positivity, ?_⟩
      show acc * 240 < 1
      rw [stepQ] at hlt
      linarith
    omega
  | succ f ih =>
    intro acc h0 hb
    by_cases hge : stepQ ≤ acc
    · have h1 : (1 : ℚ) ≤ acc * 240 := by
        rw [stepQ] at hge
        linarith
      have hfl1 : (1 : ℤ) ≤ ⌊acc * 240⌋ := Int.le_floor.2 (by exact_mod_cast h1)
      have heq : (acc - stepQ) * 240 = acc * 240 - 1 := by rw [stepQ]; ring
      have hfl : ⌊(acc - stepQ) * 240⌋ = ⌊acc * 240⌋ - 1 := by
        rw [heq, Int.floor_sub_one]
      have hb2 : Int.toNat ⌊(acc - stepQ) * 240⌋ ≤ f := by omega
      have h0' : 0 ≤ acc - stepQ := by linarith
      obtain ⟨ih1, ih2, ih3, ih4⟩ := ih (acc - stepQ) h0' hb2
      have hred : drainGo (f + 1) acc =
          ((drainGo f (acc - stepQ)).1, (drainGo f (acc - stepQ)).2 + 1) := by
        simp [drainGo, hge]
      rw [hred]
      refine ⟨?_, ih2, ih3, ?_⟩
      · show (drainGo f (acc - stepQ)).1 = acc - stepQ * ((drainGo f (acc - stepQ)).2 + 1 : ℕ)
        rw [ih1]
        push_cast
        ring
      · have hdiv : (acc - stepQ) / stepQ = acc / stepQ - 1 := by
          rw [sub_div, div_self (ne_of_gt stepQ_pos)]
        rw [hdiv, Int.floor_sub_one] at ih4
        push_cast
        omega
    · have hlt : acc < stepQ := lt_of_not_le hge
      have hred : drainGo (f + 1) acc = (acc, 0) := by simp [drainGo, hge]
      rw [hred]
      refine ⟨by simp, h0, hlt, ?_⟩
      show ((0 : ℕ) : ℤ) = ⌊acc / stepQ⌋
      rw [div_stepQ]
      have hf0 : ⌊acc * 240⌋ = 0 := by
        rw [Int.floor_eq_zero_iff, Set.mem_Ico]
        refine ⟨by positivity, ?_⟩
        show acc * 240 < 1
        rw [stepQ] at hlt
        linarith
      omega

/-- Claim C8: per frame the elapsed wall time fed to the accumulator is
clamped to at most 1/30 s; the accumulator is then drained in exact integer
multiples of the 1/240 s sub-step with the remainder carried forward, so
after the update `0 ≤ accumulator < step` and the number of executed
sub-steps is `⌊(previous accumulator + clamped dt) / step⌋`. -/
theorem c8_fixed_step_schedule (acc raw : ℚ) (hacc : 0 ≤ acc) (hraw : 0 ≤ raw) :
    clampDt raw ≤ 1/30 ∧
    (gameFrame acc raw).1 = (acc + clampDt raw) - stepQ * (gameFrame acc raw).2 ∧
    0 ≤ (gameFrame acc raw).1 ∧ (gameFrame acc raw).1 < stepQ ∧
    ((gameFrame acc raw).2 : ℤ) = ⌊(acc + clampDt raw) / stepQ⌋ := by
  have hdt : 0 ≤ clampDt raw := le_min hraw (by norm_num)
  have h0 : 0 ≤ acc + clampDt raw := by linarith
  have hspec := drainGo_spec (Int.toNat ⌊(acc + clampDt raw) * 240⌋) (acc + clampDt raw) h0
    (le_refl _)
  exact ⟨min_le_right _ _, hspec.1, hspec.2.1, hspec.2.2.1, hspec.2.2.2⟩

/-- Claim C8, witness: a 1/60 s frame starting from an empty accumulator
runs exactly 4 sub-steps of 1/240 s and leaves a zero remainder. -/
theorem c8_fixed_step_schedule_witness :
    (0 : ℚ) ≤ 0 ∧ (0 : ℚ) ≤ 1/60 ∧
    (clampDt (1/60) ≤ 1/30 ∧
     (gameFrame 0 (1/60)).1 = (0 + clampDt (1/60)) - stepQ * (gameFrame 0 (1/60)).2 ∧
     0 ≤ (gameFrame 0 (1/60)).1 ∧ (gameFrame 0 (1/60)).1 < stepQ ∧
     ((gameFrame 0 (1/60)).2 : ℤ) = ⌊(0 + clampDt (1/60)) / stepQ⌋) ∧
    (gameFrame 0 (1/60)).2 = 4 := by
  refine ⟨le_refl 0, by norm_num, c8_fixed_step_schedule 0 (1/60) (le_refl 0) (by norm_num), ?_⟩
  with_unfolding_all rfl

theorem getD_set_self (l : List Obj) (i : ℕ) (a d : Obj) (h : i < l.length) :
    (l.set i a).getD i d = a := by
  rw [List.getD_eq_getElem?_getD, List.getElem?_set_eq_of_lt a h]
  rfl

theorem getD_set_ne (l : List Obj) (i k : ℕ) (a d : Obj) (h : i ≠ k) :
    (l.set i a).getD k d = l.getD k d := by
  rw [List.getD_eq_getElem?_getD, List.getElem?_set_ne h, ← List.getD_eq_getElem?_getD]

theorem getD_map_used (objs : Store) (f : Obj → Obj) (hf : ∀ o, (f o).used = o.used) (k : ℕ) :
    ((objs.map f).getD k defaultObj).used = (objs.getD k defaultObj).used := by
  rw [List.getD_eq_getElem?_getD, List.getD_eq_getElem?_getD, List.getElem?_map]
  cases objs[k]? with
  | none => rfl
  | some x => exact hf x

/-- The group mutators never touch the `used` flag. -/
theorem applyToGroup_used (objs : Store) (tg : Option ℤ) (dx dy : ℚ)
    (c : Option ℤ) (a : Option ℚ) (k : ℕ) :
    ((applyToGroupMove objs tg dx dy).getD k defaultObj).used = (objs.getD k defaultObj).used ∧
    ((applyToGroupColor objs tg c).getD k defaultObj).used = (objs.getD k defaultObj).used ∧
    ((applyToGroupAlpha objs tg a).getD k defaultObj).used = (objs.getD k defaultObj).used := by
  refine ⟨?_, ?_, ?_⟩ <;>
    [apply getD_map_used; apply getD_map_used; apply getD_map_used] <;>
    (intro o; by_cases h : (o.group == tg) = true <;> simp [h])

/-- `handleTrigger` never clears a `used` flag. -/
theorem handleTrigger_used_mono (g : Game) (j k : ℕ)
    (h : (g.level.objects.getD k defaultObj).used = true) :
    (((handleTrigger g j).level.objects).getD k defaultObj).used = true := by
  cases hsome : g.level.objects[j]? with
  | none => simpa [handleTrigger, hsome] using h
  | some o =>
    by_cases hused : o.used
    · simpa [handleTrigger, hsome, hused] using h
    · have hjlen : j < g.level.objects.length := by
        exact List.getElem?_eq_some_iff.1 hsome |>.1
      have h0 : ((g.level.objects.set j {o with used := true}).getD k defaultObj).used = true := by
        by_cases hkj : j = k
        · subst hkj
          rw [getD_set_self _ _ _ _ hjlen]
        · rw [getD_set_ne _ _ _ _ _ hkj]
          exact h
      simp only [handleTrigger, hsome, hused, Bool.false_eq_true, if_false]
      split_ifs
      · exact ((applyToGroup_used _ o.targetGroup o.dx o.dy o.color o.alpha k).1).trans h0
      · exact ((applyToGroup_used _ o.targetGroup o.dx o.dy o.color o.alpha k).2.1).trans h0
      · exact ((applyToGroup_used _ o.targetGroup o.dx o.dy o.color o.alpha k).2.2).trans h0
      · exact h0

/-- One `updateTriggersStep` never clears a `used` flag. -/
theorem updateTriggersStep_used_mono (bbox : Rect) (g : Game) (a k : ℕ)
    (h : (g.level.objects.getD k defaultObj).used = true) :
    (((updateTriggersStep bbox g a).level.objects).getD k defaultObj).used = true := by
  show (((if (g.level.objects.getD a defaultObj).type = "trigger" &&
      Player.collide bbox (rectOf (g.level.objects.getD a defaultObj))
      then handleTrigger g a else g)).level.objects.getD k defaultObj).used = true
  split_ifs with hc
  · exact handleTrigger_used_mono g a k h
  · exact h

/-- A fold of `updateTriggersStep` never clears a `used` flag. -/
theorem foldTriggers_used_mono (bbox : Rect) :
    ∀ (vis : List ℕ) (g : Game) (k : ℕ),
      (g.level.objects.getD k defaultObj).used = true →
      (((vis.foldl (updateTriggersStep bbox) g).level.objects).getD k defaultObj).used = true := by
  intro vis
  induction vis with
  | nil => intro g k h; exact h
  | cons a l ih =>
    intro g k h
    rw [List.foldl_cons]
    exact ih (updateTriggersStep bbox g a) k (updateTriggersStep_used_mono bbox g a k h)

/-- `updateTriggers` never clears a `used` flag. -/
theorem updateTriggers_used_mono (p : Player) (g : Game) (k : ℕ)
    (h : (g.level.objects.getD k defaultObj).used = true) :
    (((updateTriggers p g).level.objects).getD k defaultObj).used = true :=
  foldTriggers_used_mono (getBBox p) (QuadTree.query g.level.objects g.tree (getBBox p) []) g k h

/-- `handleObjectAt` only writes the dispatched object back with its `used`
flag set. -/
theorem handleObjectAt_objs (p : Player) (g : Game) (objs : Store) (i : ℕ) :
    (handleObjectAt p g objs i).2.2 =
      match objs[i]? with
      | none => objs
      | some o => objs.set i {o with used := true} := by
  cases hsome : objs[i]? with
  | none => simp [handleObjectAt, hsome]
  | some o => simp [handleObjectAt, hsome, handleObject_obj]

theorem handleObjectAt_length (p : Player) (g : Game) (objs : Store) (i : ℕ) :
    (handleObjectAt p g objs i).2.2.length = objs.length := by
  rw [handleObjectAt_objs]
  cases hsome : objs[i]? <;> simp

/-- The dispatch never moves or resizes any object. -/
theorem handleObjectAt_rectAt (p : Player) (g : Game) (objs : Store) (i k : ℕ) :
    rectAt ((handleObjectAt p g objs i).2.2) k = rectAt objs k := by
  rw [handleObjectAt_objs]
  cases hsome : objs[i]? with
  | none => rfl
  | some o =>
    by_cases hik : i = k
    · subst hik
      have hlen : i < objs.length := (List.getElem?_eq_some_iff.1 hsome).1
      have hgd : objs.getD i defaultObj = o := by
        rw [List.getD_eq_getElem?_getD, hsome]
        rfl
      unfold rectAt
      rw [getD_set_self _ _ _ _ hlen, hgd]
      rfl
    · unfold rectAt
      rw [getD_set_ne _ _ _ _ _ hik]

theorem handleObjectAt_used_mono (p : Player) (g : Game) (objs : Store) (i k : ℕ)
    (h : (objs.getD k defaultObj).used = true) :
    (((handleObjectAt p g objs i).2.2).getD k defaultObj).used = true := by
  rw [handleObjectAt_objs]
  cases hsome : objs[i]? with
  | none => exact h
  | some o =>
    by_cases hik : i = k
    · subst hik
      have hlen : i < objs.length := (List.getElem?_eq_some_iff.1 hsome).1
      rw [getD_set_self _ _ _ _ hlen]
    · rw [getD_set_ne _ _ _ _ _ hik]
      exact h

theorem handleObjectAt_marks (p : Player) (g : Game) (objs : Store) (i : ℕ)
    (hi : i < objs.length) :
    (((handleObjectAt p g objs i).2.2).getD i defaultObj).used = true := by
  rw [handleObjectAt_objs]
  have hsome : objs[i]? = some objs[i] := List.getElem?_eq_getElem hi
  rw [hsome]
  rw [getD_set_self _ _ _ _ hi]

theorem objectsHandleStep_length (bbox : Rect) (s : Player × Game × Store) (i : ℕ) :
    (objectsHandleStep bbox s i).2.2.length = s.2.2.length := by
  unfold objectsHandleStep
  split_ifs
  · exact handleObjectAt_length _ _ _ _
  · rfl

theorem objectsHandleStep_rectAt (bbox : Rect) (s : Player × Game × Store) (i k : ℕ) :
    rectAt ((objectsHandleStep bbox s i).2.2) k = rectAt s.2.2 k := by
  unfold objectsHandleStep
  split_ifs
  · exact handleObjectAt_rectAt _ _ _ _ _
  · rfl

theorem objectsHandleStep_used_mono (bbox : Rect) (s : Player × Game × Store) (i k : ℕ)
    (h : (s.2.2.getD k defaultObj).used = true) :
    (((objectsHandleStep bbox s i).2.2).getD k defaultObj).used = true := by
  unfold objectsHandleStep
  split_ifs
  · exact handleObjectAt_used_mono _ _ _ _ _ h
  · exact h

theorem pass_used_mono (bbox : Rect) :
    ∀ (vis : List ℕ) (s : Player × Game × Store) (k : ℕ),
      (s.2.2.getD k defaultObj).used = true →
      (((vis.foldl (objectsHandleStep bbox) s).2.2).getD k defaultObj).used = true := by
  intro vis
  induction vis with
  | nil => intro s k h; exact h
  | cons a l ih =>
    intro s k h
    rw [List.foldl_cons]
    exact ih _ k (objectsHandleStep_used_mono bbox s a k h)

/-- Every queried reference that collides with the (fixed) dispatch bounding
box comes out of the "Objects handle" pass with its `used` flag set —
whatever the kind of the object. -/
theorem pass_marks (bbox : Rect) :
    ∀ (vis : List ℕ) (s : Player × Game × Store) (i : ℕ),
      i ∈ vis → i < s.2.2.length → Player.collide bbox (rectAt s.2.2 i) = true →
      (((vis.foldl (objectsHandleStep bbox) s).2.2).getD i defaultObj).used = true := by
  intro vis
  induction vis with
  | nil =>
    intro s i h
    cases h
  | cons a l ih =>
    intro s i hmem hlen hcol
    rw [List.foldl_cons]
    rcases eq_or_ne a i with rfl | hne
    · have hstep : ((objectsHandleStep bbox s a).2.2.getD a defaultObj).used = true := by
        unfold objectsHandleStep
        rw [if_pos hcol]
        exact handleObjectAt_marks _ _ _ _ hlen
      exact pass_used_mono bbox l _ a hstep
    · rcases List.mem_cons.1 hmem with heq | hmem2
      · exact absurd heq.symm hne
      · apply ih (objectsHandleStep bbox s a) i hmem2
        · rw [objectsHandleStep_length]
          exact hlen
        · rw [objectsHandleStep_rectAt]
          exact hcol

/-- Claim C10: (1) `handleObject` hands back every object with `used = true`
regardless of its kind — including blocks and triggers, for which it has no
dispatch branch; (2) hence the "Objects handle" pass of `Player.update`
marks every queried, colliding object used; (3) `handleTrigger` on an
already-used object is a no-op; (4) composing the pass with the subsequent
`Game.updateTriggers` (the order of `Game.update`), every trigger the player
overlapped during the dispatch still has `used = true` when `updateTriggers`
inspects it — so its `handleTrigger` call fires nothing. -/
theorem c10_dispatch_before_triggers :
    (∀ (p : Player) (g : Game) (o : Obj), ((handleObject p g o).2.2).used = true) ∧
    (∀ (bbox : Rect) (vis : List ℕ) (p : Player) (g : Game) (objs : Store) (i : ℕ),
      i ∈ vis → i < objs.length → Player.collide bbox (rectAt objs i) = true →
      (((objectsHandlePass bbox vis p g objs).2.2).getD i defaultObj).used = true) ∧
    (∀ (g : Game) (i : ℕ) (o : Obj),
      g.level.objects[i]? = some o → o.used = true → handleTrigger g i = g) ∧
    (∀ (p : Player) (g : Game) (i : ℕ),
      i ∈ QuadTree.query g.level.objects g.tree (getBBox p) [] →
      i < g.level.objects.length →
      Player.collide (getBBox p) (rectAt g.level.objects i) = true →
      ((((dispatchThenTriggers p g).2).level.objects).getD i defaultObj).used = true) := by
  refine ⟨?_, ?_, handleTrigger_used, ?_⟩
  · intro p g o
    rw [handleObject_obj]
  · intro bbox vis p g objs i hmem hlen hcol
    exact pass_marks bbox vis (p, g, objs) i hmem hlen hcol
  · intro p g i hvis hlen hcol
    exact updateTriggers_used_mono _ _ i
      (pass_marks (getBBox p) (QuadTree.query g.level.objects g.tree (getBBox p) [])
        (p, g, g.level.objects) i hvis hlen hcol)

/-- Claim C10, witness: a single trigger overlapped by the player is already
used by the time `updateTriggers` runs in the composed frame fragment. -/
theorem c10_dispatch_before_triggers_witness :
    (0 ∈ QuadTree.query gC10.level.objects gC10.tree (getBBox pC10) []) ∧
    0 < gC10.level.objects.length ∧
    Player.collide (getBBox pC10) (rectAt gC10.level.objects 0) = true ∧
    ((((dispatchThenTriggers pC10 gC10).2).level.objects).getD 0 defaultObj).used = true := by
  have hq : QuadTree.query gC10.level.objects gC10.tree (getBBox pC10) [] = [0] := by
    with_unfolding_all rfl
  have hmem : 0 ∈ QuadTree.query gC10.level.objects gC10.tree (getBBox pC10) [] := by
    rw [hq]
    exact List.mem_singleton.2 rfl
  have hlen : 0 < gC10.level.objects.length := by
    show 0 < storeC10.length
    simp [storeC10]
  have hcol : Player.collide (getBBox pC10) (rectAt gC10.level.objects 0) = true := by
    with_unfolding_all rfl
  exact ⟨hmem, hlen, hcol,
    c10_dispatch_before_triggers.2.2.2 pC10 gC10 0 hmem hlen hcol⟩

theorem getD_map_lt (l : List Obj) (f : Obj → Obj) (k : ℕ) (d : Obj) (h : k < l.length) :
    (l.map f).getD k d = f (l.getD k d) := by
  rw [List.getD_eq_getElem?_getD, List.getElem?_map, List.getElem?_eq_getElem h,
    List.getD_eq_getElem?_getD, List.getElem?_eq_getElem h]
  rfl

theorem applyToGroupMove_length (objs : Store) (tg : Option ℤ) (dx dy : ℚ) :
    (applyToGroupMove objs tg dx dy).length = objs.length := by
  unfold applyToGroupMove
  exact List.length_map _ _

theorem c2_group_move_trigger (g : Game) (ti : ℕ) (trig : Obj)
    (hti : g.level.objects[ti]? = some trig)
    (hused : trig.used = false)
    (heff : trig.effect = some "move")
    (htg : trig.targetGroup = some 1)
    (hdx : trig.dx = 50) (hdy : trig.dy = 0)
    (hobjs : ∀ j, j < g.level.objects.length →
      (g.level.objects.getD j defaultObj).group = some 1 →
      0 < (g.level.objects.getD j defaultObj).w ∧
      (g.level.objects.getD j defaultObj).w ≤ 50 ∧
      0 < (g.level.objects.getD j defaultObj).h ∧
      QuadTree.intersects ⟨0, 0, g.level.width, g.level.height⟩
        ⟨(g.level.objects.getD j defaultObj).x + 50, (g.level.objects.getD j defaultObj).y,
         (g.level.objects.getD j defaultObj).w, (g.level.objects.getD j defaultObj).h⟩ = true) :
    (∀ j, j < g.level.objects.length → j ≠ ti →
      (g.level.objects.getD j defaultObj).group ≠ some 1 →
      (handleTrigger g ti).level.objects.getD j defaultObj =
        g.level.objects.getD j defaultObj) ∧
    (∀ j, j < g.level.objects.length → j ≠ ti →
      (g.level.objects.getD j defaultObj).group = some 1 →
      (handleTrigger g ti).level.objects.getD j defaultObj =
        {g.level.objects.getD j defaultObj with
          x := (g.level.objects.getD j defaultObj).x + 50}) ∧
    ((handleTrigger g ti).level.objects.getD ti defaultObj =
      if trig.group = some 1 then {trig with used := true, x := trig.x + 50}
      else {trig with used := true}) ∧
    (∀ j, j < g.level.objects.length →
      (g.level.objects.getD j defaultObj).group = some 1 →
      j ∈ QuadTree.query (handleTrigger g ti).level.objects (handleTrigger g ti).tree
        (rectAt (handleTrigger g ti).level.objects j) []) ∧
    (∀ j, j < g.level.objects.length →
      (g.level.objects.getD j defaultObj).group = some 1 →
      j ∉ QuadTree.query (handleTrigger g ti).level.objects (handleTrigger g ti).tree
        (rectAt g.level.objects j) []) := by
  have hlen_ti : ti < g.level.objects.length := (List.getElem?_eq_some_iff.1 hti).1
  have hgd_ti : g.level.objects.getD ti defaultObj = trig := by
    rw [List.getD_eq_getElem?_getD, hti]
    rfl
  have hexp : handleTrigger g ti =
      {g with
        level :=
          {g.level with
            objects :=
              applyToGroupMove (g.level.objects.set ti {trig with used := true}) (some 1) 50 0},
        tree :=
          buildTree
            (applyToGroupMove (g.level.objects.set ti {trig with used := true}) (some 1) 50 0)
            ⟨0, 0, g.level.width, g.level.height⟩} := by
    simp [handleTrigger, hti, hused, heff, htg, hdx, hdy]
  have hlen0 : (g.level.objects.set ti {trig with used := true}).length =
      g.level.objects.length := List.length_set g.level.objects ti _
  have hlen2 :
      (applyToGroupMove (g.level.objects.set ti {trig with used := true}) (some 1) 50 0).length =
        g.level.objects.length := by
    rw [applyToGroupMove_length, hlen0]
  have hbase : ∀ j, (g.level.objects.set ti {trig with used := true}).getD j defaultObj =
      if ti = j then {trig with used := true} else g.level.objects.getD j defaultObj := by
    intro j
    by_cases hij : ti = j
    · subst hij
      rw [if_pos rfl, getD_set_self _ _ _ _ hlen_ti]
    · rw [if_neg hij, getD_set_ne _ _ _ _ _ hij]
  have hchar : ∀ j, j < g.level.objects.length →
      (applyToGroupMove (g.level.objects.set ti {trig with used := true}) (some 1) 50 0).getD j
          defaultObj =
        (if ((if ti = j then {trig with used := true} else
            g.level.objects.getD j defaultObj).group == (some 1 : Option ℤ)) = true then
          {(if ti = j then {trig with used := true} else g.level.objects.getD j defaultObj) with
            x := (if ti = j then {trig with used := true} else
              g.level.objects.getD j defaultObj).x + 50,
            y := (if ti = j then {trig with used := true} else
              g.level.objects.getD j defaultObj).y + 0}
        else (if ti = j then {trig with used := true} else
          g.level.objects.getD j defaultObj)) := by
    intro j hj
    unfold applyToGroupMove
    rw [getD_map_lt _ _ _ _ (by rw [hlen0]; exact hj), hbase j]
  have hrect2 : ∀ j, j < g.level.objects.length →
      (g.level.objects.getD j defaultObj).group = some 1 →
      rectAt (applyToGroupMove (g.level.objects.set ti {trig with used := true}) (some 1) 50 0) j =
        ⟨(g.level.objects.getD j defaultObj).x + 50, (g.level.objects.getD j defaultObj).y,
         (g.level.objects.getD j defaultObj).w, (g.level.objects.getD j defaultObj).h⟩ := by
    intro j hj hgr
    unfold rectAt
    rw [hchar j hj]
    by_cases hij : ti = j
    · have hgr2 : trig.group = some 1 := by
        rw [← hij] at hgr
        rw [hgd_ti] at hgr
        exact hgr
      rw [if_pos hij]
      rw [if_pos (by simpa using hgr2)]
      rw [← hij, hgd_ti]
      simp [rectOf]
    · rw [if_neg hij]
      rw [if_pos (by simpa using hgr)]
      simp [rectOf]
  refine ⟨?_, ?_, ?_, ?_, ?_⟩
  · intro j hj hne hgr
    rw [hexp]
    show (applyToGroupMove (g.level.objects.set ti {trig with used := true})
        (some 1) 50 0).getD j defaultObj = _
    rw [hchar j hj, if_neg (Ne.symm hne)]
    rw [if_neg (by simpa using hgr)]
  · intro j hj hne hgr
    rw [hexp]
    show (applyToGroupMove (g.level.objects.set ti {trig with used := true})
        (some 1) 50 0).getD j defaultObj = _
    rw [hchar j hj, if_neg (Ne.symm hne)]
    rw [if_pos (by simpa using hgr)]
    generalize g.level.objects.getD j defaultObj = o
    cases o
    simp
  · rw [hexp]
    show (applyToGroupMove (g.level.objects.set ti {trig with used := true})
        (some 1) 50 0).getD ti defaultObj = _
    rw [hchar ti hlen_ti, if_pos rfl]
    by_cases hgr : trig.group = some 1
    · rw [if_pos (by simpa using hgr), if_pos hgr]
      cases trig
      simp
    · rw [if_neg (by simpa using hgr), if_neg hgr]
  · intro j hj hgr
    obtain ⟨hw, hle, hh, hb⟩ := hobjs j hj hgr
    have hjlen2 : j <
        (applyToGroupMove (g.level.objects.set ti {trig with used := true})
          (some 1) 50 0).length := by
      rw [hlen2]
      exact hj
    have key := buildTree_finds
      (applyToGroupMove (g.level.objects.set ti {trig with used := true}) (some 1) 50 0)
      ⟨0, 0, g.level.width, g.level.height⟩ j hjlen2
      (by rw [hrect2 j hj hgr]; exact hw)
      (by rw [hrect2 j hj hgr]; exact hh)
      (by rw [hrect2 j hj hgr]; exact hb)
    rw [hexp]
    exact key
  · intro j hj hgr hmem
    obtain ⟨hw, hle, hh, hb⟩ := hobjs j hj hgr
    rw [hexp] at hmem
    have hs := query_sound
      (applyToGroupMove (g.level.objects.set ti {trig with used := true}) (some 1) 50 0)
      (rectAt g.level.objects j) _ j hmem
    rw [hrect2 j hj hgr] at hs
    rw [intersects_iff] at hs
    obtain ⟨c1, c2, c3, c4⟩ := hs
    simp only [rectAt, rectOf] at c2
    linarith

/-- Claim C2, witness: the move trigger of `gC2` applied once shifts the
group-1 ground block by (50, 0), leaves the group-2 block byte-identical,
and the rebuilt index answers the new-bounds query with the block while the
old-bounds query misses it. -/
theorem c2_group_move_trigger_witness :
    (∀ j, j < gC2.level.objects.length → j ≠ 0 →
      (gC2.level.objects.getD j defaultObj).group ≠ some 1 →
      (handleTrigger gC2 0).level.objects.getD j defaultObj =
        gC2.level.objects.getD j defaultObj) ∧
    (∀ j, j < gC2.level.objects.length → j ≠ 0 →
      (gC2.level.objects.getD j defaultObj).group = some 1 →
      (handleTrigger gC2 0).level.objects.getD j defaultObj =
        {gC2.level.objects.getD j defaultObj with
          x := (gC2.level.objects.getD j defaultObj).x + 50}) ∧
    ((handleTrigger gC2 0).level.objects.getD 0 defaultObj =
      if trigC2.group = some 1 then {trigC2 with used := true, x := trigC2.x + 50}
      else {trigC2 with used := true}) ∧
    (∀ j, j < gC2.level.objects.length →
      (gC2.level.objects.getD j defaultObj).group = some 1 →
      j ∈ QuadTree.query (handleTrigger gC2 0).level.objects (handleTrigger gC2 0).tree
        (rectAt (handleTrigger gC2 0).level.objects j) []) ∧
    (∀ j, j < gC2.level.objects.length →
      (gC2.level.objects.getD j defaultObj).group = some 1 →
      j ∉ QuadTree.query (handleTrigger gC2 0).level.objects (handleTrigger gC2 0).tree
        (rectAt gC2.level.objects j) []) := by
  exact c2_group_move_trigger gC2 0 trigC2
    (by with_unfolding_all rfl) (by with_unfolding_all rfl) (by with_unfolding_all rfl)
    (by with_unfolding_all rfl) (by with_unfolding_all rfl) (by with_unfolding_all rfl)
    (by with_unfolding_all decide)
